import Mathlib

/-!
Verification development for the flytekit annotated-DSL compilation core.

The definitions below are a shallow embedding of the Python sources
`flytekit/annotated/stuff.py` and `flytekit/common/workflow.py`.
Python dictionaries are embedded as association lists that keep the
first-insertion order of keys and overwrite values in place, matching
CPython dict semantics.  Raised exceptions are embedded as `Except Err`
results, with one `Err` constructor per kind of exception the modelled
code can raise (builtin `KeyError` / `IndexError` / `TypeError`,
`raise Exception(msg)`, and the flytekit user/system exception classes).

Modules of the repository that are referenced but whose files are not
part of the sources here (`flytekit.common.interface`,
`flytekit.common.nodes`, `flytekit.common.constants`, and the wire-model
constructors) are modelled from the specification; each such definition
carries a doc comment starting with `Modelled from the spec:`.
-/

namespace Flytekit

/-- Host-language (Python) types that can appear in task annotations. -/
inductive PyType where
  | int
  | float
  | bool
  | datetime
  | timedelta
  | str
  | dict
  | other (name : String)
deriving DecidableEq, Repr

/-- Engine-side literal types, the codomain of `SIMPLE_TYPE_LOOKUP_TABLE`.
The extra constructor `booleanSdkClass` reflects that the source maps
`bool` to the `_primitives.Boolean` class object itself instead of calling
`to_flyte_literal_type()` on it, unlike every other entry of the table. -/
inductive FlyteLiteralType where
  | integer
  | floatType
  | booleanSdkClass
  | datetimeType
  | durationType
  | stringType
  | genericType
deriving DecidableEq, Repr

/-- The `SIMPLE_TYPE_LOOKUP_TABLE` dictionary: host type to engine literal
type; `none` models absence of the key from the table. -/
def simpleTypeLookupTable : PyType → Option FlyteLiteralType
  | PyType.int => some FlyteLiteralType.integer
  | PyType.float => some FlyteLiteralType.floatType
  | PyType.bool => some FlyteLiteralType.booleanSdkClass
  | PyType.datetime => some FlyteLiteralType.datetimeType
  | PyType.timedelta => some FlyteLiteralType.durationType
  | PyType.str => some FlyteLiteralType.stringType
  | PyType.dict => some FlyteLiteralType.genericType
  | PyType.other _ => none

/-- The `_interface_models.Variable` wire model: a (type, description) pair. -/
structure Variable where
  type : FlyteLiteralType
  description : String
deriving DecidableEq, Repr

/-- Exceptions the embedded code can raise. -/
inductive Err where
  | exceptionMsg (msg : String)
  | flyteAssertion (msg : String)
  | flyteSystemException (msg : String)
  | flyteEntityAlreadyExists
  | typeError (msg : String)
  | indexError
  | keyError (key : String)
deriving DecidableEq, Repr

/-- Lookup in an association list embedding a Python dict: first matching
key wins (keys of a Python dict are unique, so this is the dict lookup). -/
def assocGet {K V : Type} [DecidableEq K] : List (K × V) → K → Option V
  | [], _ => none
  | p :: rest, k => if p.1 = k then some p.2 else assocGet rest k

/-- Write one key into a Python-dict association list: if the key is
present the value is overwritten in place (keeping the key position),
otherwise the pair is appended, exactly as CPython dict insertion does. -/
def dictSet {K V : Type} [DecidableEq K] (d : List (K × V)) (k : K) (v : V) : List (K × V) :=
  if (d.map Prod.fst).contains k then
    d.map (fun p => if p.1 = k then (k, v) else p)
  else
    d ++ [(k, v)]

/-- Build a Python dict from a list of key/value pairs by repeated
insertion (models a dict literal / comprehension / `dict(zip(...))`):
keys keep first-occurrence order and later values overwrite earlier ones. -/
def pyDict {K V : Type} [DecidableEq K] (l : List (K × V)) : List (K × V) :=
  l.foldl (fun d p => dictSet d p.1 p.2) []

/-- The `get_variable_map` function: walk the annotation dict in order and
translate each Python type through `SIMPLE_TYPE_LOOKUP_TABLE`, raising
`Exception(f"Python type ... not yet supported.")` at the first type that
is absent from the table.  The variable description is the variable name. -/
def getVariableMap : List (String × PyType) → Except Err (List (String × Variable))
  | [] => Except.ok []
  | (k, v) :: rest =>
    match simpleTypeLookupTable v with
    | none => Except.error (Err.exceptionMsg ("Python type not yet supported."))
    | some t =>
      match getVariableMap rest with
      | Except.error e => Except.error e
      | Except.ok m => Except.ok ((k, { type := t, description := k }) :: m)

/-- The return annotation of a task function: either a single type or a
tuple of types (`type(task_annotations[...]) != tuple` distinguishes them). -/
inductive RetAnn where
  | single (t : PyType)
  | tup (ts : List PyType)
deriving DecidableEq, Repr

/-- A task function signature as the decorator sees it: the annotation
dict split into the non-return entries (in declaration order) and the
optional return annotation. -/
structure TaskAnn where
  inputs : List (String × PyType)
  ret : Option RetAnn
deriving DecidableEq, Repr

/-- Normalization step of `get_interface_from_task_info`: a single return
type becomes a one-element tuple, a tuple annotation is used as is. -/
def normalizeReturnTypes : RetAnn → List PyType
  | RetAnn.single t => [t]
  | RetAnn.tup ts => ts

/-- The `interface.TypedInterface` object: named, typed inputs and outputs
as insertion-ordered maps.  `TypedInterface.promote_from_model` of the
source is the identity on this representation. -/
structure TypedInterface where
  inputs : List (String × Variable)
  outputs : List (String × Variable)
deriving DecidableEq, Repr

/-- The `get_variable_map_from_lists` function: zip names with types into
a dict (later duplicate names overwrite) and run `get_variable_map`. -/
def getVariableMapFromLists (variableNames : List String) (pythonTypes : List PyType) :
    Except Err (List (String × Variable)) :=
  getVariableMap (pyDict (variableNames.zip pythonTypes))

/-- The `get_interface_from_task_info` function.  Raises
`Exception("1fkdsa39mlsda")` when the return annotation is absent while
output names were requested; raises a builtin `KeyError` on the
unconditional `task_annotations[...]` subscript when the return
annotation is absent and no output names were requested; raises
`Exception("Output length mismatch ...")` when the output-name count
differs from the (normalized) return-type count. -/
def getInterfaceFromTaskInfo (ann : TaskAnn) (outputNames : List String) :
    Except Err TypedInterface :=
  if ann.ret.isNone ∧ outputNames.length ≠ 0 then
    Except.error (Err.exceptionMsg ("1fkdsa39mlsda"))
  else
    match ann.ret with
    | none => Except.error (Err.keyError ("return"))
    | some r =>
      let returnTypes := normalizeReturnTypes r
      if outputNames.length ≠ returnTypes.length then
        Except.error (Err.exceptionMsg ("Output length mismatch"))
      else
        match getVariableMap ann.inputs with
        | Except.error e => Except.error e
        | Except.ok inputsMap =>
          match getVariableMapFromLists outputNames returnTypes with
          | Except.error e => Except.error e
          | Except.ok outputsMap =>
            Except.ok { inputs := inputsMap, outputs := outputsMap }

/-- Resource kinds of `_identifier_model.ResourceType`. -/
inductive ResourceType where
  | task
  | workflow
  | launchPlan
deriving DecidableEq, Repr

/-- The `Identifier` wire model. -/
structure Identifier where
  resourceType : ResourceType
  project : String
  domain : String
  name : String
  version : String
deriving DecidableEq, Repr

/-- A plain literal value passed as a task argument. -/
inductive Lit where
  | intLit (n : Int)
  | strLit (s : String)
  | boolLit (b : Bool)
deriving DecidableEq, Repr

/-- The payload of a `Binding`: either a literal or a promise pointing at
a named output of another node (the node recorded by its id, which is
still `none` for nodes that have not been registered). -/
inductive BindingData where
  | literal (value : Lit)
  | promise (nodeId : Option String) (var : String)
deriving DecidableEq, Repr

/-- The `_literal_models.Binding` wire model: a variable name bound to data. -/
structure Binding where
  var : String
  data : BindingData
deriving DecidableEq, Repr

/-- The `NodeMetadata` wire model as constructed in the sources:
a name, a timeout (seconds), a retry count and an interruptible flag. -/
structure NodeMetadata where
  name : String
  timeout : Int
  retries : Nat
  interruptible : Option Bool
deriving DecidableEq, Repr

/-- The executable wrapped by a node: exactly one of a task reference, a
sub-workflow reference, or a branch.  The live `sdk_task=self` /
`sdk_workflow=self` object references of the sources are modelled by the
executable entity identifier (the executable objects themselves are
external to the compiled-graph fragment). -/
inductive NodeTarget where
  | taskRef (taskId : Option Identifier)
  | subWorkflowRef (workflowId : Identifier)
  | branchRef
deriving DecidableEq, Repr

/-- The live `SdkNode` object: optional id (assigned only at registration),
metadata, input bindings, the list of live upstream node references, and
the wrapped executable.  `flytekit.common.nodes` is not among the sources,
so the record layout follows the spec (section 4.3) and the constructor
calls visible in the sources. -/
inductive SdkNode where
  | mk (id : Option String) (metadata : NodeMetadata) (bindings : List Binding)
       (upstreamNodeIds : List (Option String)) (upstream : List SdkNode)
       (target : NodeTarget)

/-- The id of a node. -/
def SdkNode.nodeId : SdkNode → Option String
  | SdkNode.mk i _ _ _ _ _ => i

/-- The metadata of a node. -/
def SdkNode.nodeMetadata : SdkNode → NodeMetadata
  | SdkNode.mk _ m _ _ _ _ => m

/-- The bindings of a node. -/
def SdkNode.nodeBindings : SdkNode → List Binding
  | SdkNode.mk _ _ b _ _ _ => b

/-- The stored wire-level upstream id list of a node (the
`upstream_node_ids` field of the underlying node wire model, a snapshot
of the upstream ids taken when the node object was built). -/
def SdkNode.upstreamNodeIds : SdkNode → List (Option String)
  | SdkNode.mk _ _ _ ids _ _ => ids

/-- The live upstream references of a node. -/
def SdkNode.upstream : SdkNode → List SdkNode
  | SdkNode.mk _ _ _ _ u _ => u

/-- The executable wrapped by a node. -/
def SdkNode.nodeTarget : SdkNode → NodeTarget
  | SdkNode.mk _ _ _ _ _ t => t

/-- Modelled from the spec: the dependency-declaration operator of
`flytekit.common.nodes.SdkNode` (the `current << upstream_node` call of
`promote_from_model`), which appends one node to the live upstream list. -/
def SdkNode.appendUpstream : SdkNode → SdkNode → SdkNode
  | SdkNode.mk i m b ids u t, n => SdkNode.mk i m b ids (u ++ [n]) t

/-- Modelled from the spec: the per-output wrapper handle handed back by
`OutputParameterMapper` (`flytekit.common.nodes`, not among the sources;
spec section 4.3): it references one node and one named output variable,
and carries the sdk type of that output. -/
structure NodeOutput where
  sdkNode : SdkNode
  var : String
  sdkType : FlyteLiteralType

/-- A value passed as a keyword argument to a task or workflow call:
either a plain literal or an output handle of a previously built node. -/
inductive BindingValue where
  | lit (value : Lit)
  | nodeOut (h : NodeOutput)

/-- Modelled from the spec: `TypedInterface.create_bindings_for_inputs`
(`flytekit.common.interface`, not among the sources; spec section 4.2).
Every keyword name must be a declared input; a node-output value becomes
a promise binding and contributes its node to the upstream collection, a
literal value becomes a literal binding with no upstream contribution.
Bindings and upstream nodes are produced in keyword order. -/
def createBindingsForInputs (iface : TypedInterface) :
    List (String × BindingValue) → Except Err (List Binding × List SdkNode)
  | [] => Except.ok ([], [])
  | (k, v) :: rest =>
    if (assocGet iface.inputs k).isNone then
      Except.error (Err.flyteAssertion ("Unknown input: not declared in the interface"))
    else
      match createBindingsForInputs iface rest with
      | Except.error e => Except.error e
      | Except.ok (bs, ups) =>
        match v with
        | BindingValue.lit l =>
          Except.ok ({ var := k, data := BindingData.literal l } :: bs, ups)
        | BindingValue.nodeOut h =>
          Except.ok ({ var := k, data := BindingData.promise h.sdkNode.nodeId h.var } :: bs,
            h.sdkNode :: ups)

/-- Lexicographic comparison of character lists by code point, the order
Python string comparison (and hence `sorted(key=lambda b: b.var)`) uses.
An executable companion of the string order, so that concrete sort
results evaluate inside proofs. -/
def charListLe : List Char → List Char → Bool
  | [], _ => true
  | _ :: _, [] => false
  | a :: as, b :: bs =>
    if a < b then true
    else if b < a then false
    else charListLe as bs

/-- The comparison used by `sorted(bindings, key=lambda b: b.var)`. -/
def bindingLe (a b : Binding) : Prop := a.var ≤ b.var

instance : DecidableRel bindingLe := fun a b =>
  decidable_of_iff (charListLe a.var.data b.var.data = true) (by
    have key : ∀ (as bs : List Char), charListLe as bs = true ↔ ¬ bs < as := by
      intro as
      induction as with
      | nil =>
        intro bs
        exact iff_of_true rfl (fun h => nomatch h)
      | cons a as ih =>
        intro bs
        cases bs with
        | nil => exact iff_of_false (by simp [charListLe]) (not_not_intro List.Lex.nil)
        | cons b bs =>
          by_cases hab : a < b
          · refine iff_of_true (by simp [charListLe, hab]) ?_
            intro h
            cases h with
            | cons h2 => exact absurd hab (lt_irrefl a)
            | rel h2 => exact absurd h2 (lt_asymm hab)
          · by_cases hba : b < a
            · refine iff_of_false (by simp [charListLe, hab, hba]) ?_
              exact not_not_intro (List.Lex.rel hba)
            · have heq : a = b := le_antisymm (le_of_not_lt hba) (le_of_not_lt hab)
              subst heq
              simp only [charListLe, lt_irrefl, if_false]
              rw [ih bs]
              constructor
              · intro h hc
                cases hc with
                | cons h2 => exact h h2
                | rel h2 => exact absurd h2 (lt_irrefl a)
              · intro h hc
                exact h (List.Lex.cons hc)
    rw [key]
    show _ ↔ a.var ≤ b.var
    rw [String.le_iff_toList_le]
    exact not_lt)

instance : IsTotal Binding bindingLe := ⟨fun a b => le_total a.var b.var⟩

instance : IsTrans Binding bindingLe := ⟨fun _ _ _ h h2 => le_trans h h2⟩

/-- The `sorted(bindings, key=lambda b: b.var)` call (a stable sort on the
variable name). -/
def sortBindings (bs : List Binding) : List Binding := List.insertionSort bindingLe bs

/-- The `RuntimeMetadata.RuntimeType` enum values used by the sources. -/
inductive RuntimeType where
  | flyteSdk
  | otherRuntime
deriving DecidableEq, Repr

/-- The `_task_model.RuntimeMetadata` wire model. -/
structure RuntimeMetadata where
  runtimeType : RuntimeType
  version : String
  flavor : String
deriving DecidableEq, Repr

/-- The `_task_model.TaskMetadata` wire model, with the fields in the
order of the constructor call in `task.wrapper`. -/
structure TaskMetadata where
  discoverable : Bool
  runtime : RuntimeMetadata
  timeout : Int
  retries : Nat
  interruptible : Option Bool
  discoveryVersion : String
  deprecatedErrorMessage : String
deriving DecidableEq, Repr

/-- The `PythonTask` object.  `outputs` stores the raw `outputs` argument
of the `task` decorator (which stays `None` when the user omitted it),
while `interface` was built from `outputs or []`.  The wrapped Python
function and the `info` hash are opaque to the compiled-graph fragment
and are not modelled. -/
structure PythonTask where
  interface : TypedInterface
  metadata : TaskMetadata
  outputs : Option (List String)
  taskId : Option Identifier

/-- Modelled from the spec: the `OutputParameterMapper` subscript
`ppp[output_name]` (`flytekit.common.nodes`, not among the sources; spec
section 4.3): it looks the name up among the interface outputs and wraps
the node together with that output variable; a name that is not an
interface output is a `KeyError`. -/
def outputParameterMapperGet (iface : TypedInterface) (node : SdkNode) (name : String) :
    Except Err NodeOutput :=
  match assocGet iface.outputs name with
  | none => Except.error (Err.keyError name)
  | some v => Except.ok { sdkNode := node, var := name, sdkType := v.type }

/-- The list comprehension `[ppp[self._outputs[i]] for i in range(0, len(self._outputs))]`:
output handles are looked up in declaration order, the first failing
lookup raising. -/
def lookupOutputHandles (iface : TypedInterface) (node : SdkNode) :
    List String → Except Err (List NodeOutput)
  | [] => Except.ok []
  | o :: rest =>
    match outputParameterMapperGet iface node o with
    | Except.error e => Except.error e
    | Except.ok h =>
      match lookupOutputHandles iface node rest with
      | Except.error e => Except.error e
      | Except.ok hs => Except.ok (h :: hs)

/-- The node construction inside `PythonTask.__call__` (compile mode):
resolve the keyword arguments to bindings plus upstream nodes, then build
an `SdkNode` with no id, a `NodeMetadata` made of the empty name and the
task metadata timeout / retries / interruptible flags, the bindings
sorted by variable name, and the task itself as executable. -/
def mkTaskNode (t : PythonTask) (kwargs : List (String × BindingValue)) :
    Except Err SdkNode :=
  match createBindingsForInputs t.interface kwargs with
  | Except.error e => Except.error e
  | Except.ok (bindings, upstreamNodes) =>
    Except.ok (SdkNode.mk none
      { name := "", timeout := t.metadata.timeout, retries := t.metadata.retries,
        interruptible := t.metadata.interruptible }
      (sortBindings bindings) (upstreamNodes.map SdkNode.nodeId) upstreamNodes
      (NodeTarget.taskRef t.taskId))

/-- The value returned by invoking a `PythonTask`: in compile mode either
a single output handle or a tuple of handles; outside compile mode the
call is a pass-through to the wrapped Python function, which is outside
the model and represented by the `localExecution` marker. -/
inductive TaskCallValue where
  | single (h : NodeOutput)
  | tupleOf (hs : List NodeOutput)
  | localExecution

/-- The `PythonTask.__call__` method.  `flag` is the process-wide
`CONFIGURATION_SINGLETON.x` value and `numPositionalArgs` the number of
positional arguments.  In compile mode (`flag = 1`): positional arguments
raise a `FlyteAssertion`; then the node is built; then
`len(self._outputs)` raises a builtin `TypeError` when the stored raw
outputs value is `None`; with more than one declared output a tuple of
per-output handles is returned, otherwise `self._outputs[0]` is looked up
(a builtin `IndexError` when the declared output list is empty). -/
def pythonTaskCall (t : PythonTask) (flag : Nat) (numPositionalArgs : Nat)
    (kwargs : List (String × BindingValue)) : Except Err TaskCallValue :=
  if flag = 1 then
    if numPositionalArgs > 0 then
      Except.error (Err.flyteAssertion
        ("When adding a task as a node in a workflow, all inputs must be specified with kwargs only"))
    else
      match mkTaskNode t kwargs with
      | Except.error e => Except.error e
      | Except.ok sdkNode =>
        match t.outputs with
        | none => Except.error (Err.typeError ("object of type NoneType has no len"))
        | some outs =>
          if outs.length > 1 then
            match lookupOutputHandles t.interface sdkNode outs with
            | Except.error e => Except.error e
            | Except.ok hs => Except.ok (TaskCallValue.tupleOf hs)
          else
            match outs with
            | [] => Except.error Err.indexError
            | o :: _ =>
              match outputParameterMapperGet t.interface sdkNode o with
              | Except.error e => Except.error e
              | Except.ok h => Except.ok (TaskCallValue.single h)
  else
    Except.ok TaskCallValue.localExecution

/-- The task identifier assigned by `task.wrapper` right after building
the `PythonTask`. -/
def taskDefaultId : Identifier :=
  { resourceType := ResourceType.task, project := "proj", domain := "dom",
    name := "blah", version := "1" }

/-- The `task` decorator body (`task.wrapper`): builds the `TaskMetadata`
record (timeout defaulting to a zero duration), derives the interface
from the function annotations and `outputs or []`, and stores the raw
`outputs` argument on the resulting `PythonTask`.  The resource-request
`task_obj` hash has no effect on the compiled graph and is not modelled. -/
def taskWrapper (outputs : Option (List String)) (cache : Bool) (cacheVersion : String)
    (retries : Nat) (interruptible : Option Bool) (deprecated : String)
    (timeout : Option Int) (ann : TaskAnn) : Except Err PythonTask :=
  let metadata : TaskMetadata :=
    { discoverable := cache,
      runtime := { runtimeType := RuntimeType.flyteSdk, version := "1.2.3", flavor := "python" },
      timeout := timeout.getD 0,
      retries := retries,
      interruptible := interruptible,
      discoveryVersion := cacheVersion,
      deprecatedErrorMessage := deprecated }
  match getInterfaceFromTaskInfo ann (outputs.getD []) with
  | Except.error e => Except.error e
  | Except.ok iface =>
    Except.ok { interface := iface, metadata := metadata, outputs := outputs,
                taskId := some taskDefaultId }

/-- The `WorkflowOutputs` value a workflow builder function returns: the
positional arguments it was constructed with (the constructor rejects
keyword arguments; the body of the `workflow.wrapper` loop then assumes
each argument is a node-output handle, reading `out.var` and
`out.sdk_type`). -/
structure WorkflowOutputs where
  args : List NodeOutput

/-- The annotated `Workflow` instance returned by the `workflow`
decorator, with the identifier assigned right after construction (the
wrapped builder function itself is opaque to the compiled graph). -/
structure Workflow where
  wfId : Identifier

/-- The workflow identifier assigned by `workflow.wrapper`. -/
def workflowDefaultId : Identifier :=
  { resourceType := ResourceType.workflow, project := "proj", domain := "dom",
    name := "moreblah", version := "1" }

/-- The output-naming loop of `workflow.wrapper`: for each returned
output expression, in order, the loop evaluates (inside the debug
f-string) `outputs[i]` with a running index.  When `outputs` is `None`
the subscript is a builtin `TypeError`; when the index reaches the end of
the declared-output list it is a builtin `IndexError`.  No check relates
the two lengths: fewer returned expressions than declared names pass
through silently. -/
def nameOutputsLoop (outputs : Option (List String)) :
    List NodeOutput → Nat → Except Err Unit
  | [], _ => Except.ok ()
  | _ :: rest, i =>
    match outputs with
    | none => Except.error (Err.typeError ("NoneType object is not subscriptable"))
    | some names =>
      if i < names.length then nameOutputsLoop outputs rest (i + 1)
      else Except.error Err.indexError

/-- The `workflow` decorator body (`workflow.wrapper`), with the
process-wide `CONFIGURATION_SINGLETON.x` compile flag threaded as
explicit state.  The wrapper saves the old flag value, sets the flag to
`1`, builds the input variable map from the function annotations, runs
the builder function (here a state transformer, since the body may read
and write the flag and may raise), runs the output-naming loop, and only
then restores the saved flag value.  There is no try/finally: when any of
these steps raises, the flag is left as the raising step left it.  The
`promise.Input` parameter conversion between the variable map and the
builder run calls only external total constructors and is not modelled. -/
def workflowWrapper (outputs : Option (List String)) (annInputs : List (String × PyType))
    (builder : Nat → (Except Err WorkflowOutputs) × Nat) (s : Nat) :
    Except Err Workflow × Nat :=
  let oldSetting := s
  match getVariableMap annInputs with
  | Except.error e => (Except.error e, 1)
  | Except.ok _inputsMap =>
    match builder 1 with
    | (Except.error e, s2) => (Except.error e, s2)
    | (Except.ok wouts, s2) =>
      match nameOutputsLoop outputs wouts.args 0 with
      | Except.error e => (Except.error e, s2)
      | Except.ok _ => (Except.ok { wfId := workflowDefaultId }, oldSetting)

/-- The workflow-level metadata wire model; its contents are external to
the compiled-graph fragment (spec section 1) and never inspected here. -/
abbrev WorkflowMetadata := Unit

/-- The workflow-level metadata-defaults wire model; external contents,
never inspected here. -/
abbrev WorkflowMetadataDefaults := Unit

/-- The control-plane `SdkWorkflow` entity: identifier, metadata records,
typed interface, node list and output bindings (the fields the
`WorkflowTemplate` parent constructor receives). -/
structure SdkWorkflow where
  wfId : Identifier
  metadata : WorkflowMetadata
  metadataDefaults : WorkflowMetadataDefaults
  interface : TypedInterface
  nodes : List SdkNode
  outputs : List Binding

/-- Modelled from the spec: the identifier `SdkWorkflow.__init__` builds
when none is supplied uses a fresh `uuid4().hex` name together with
configured project / domain / version values; the generated name is
nondeterministic and is embedded as a fixed placeholder (none of the
verified properties inspects it). -/
def uuidPlaceholderId : Identifier :=
  { resourceType := ResourceType.workflow, project := "project-config",
    domain := "domain-config", name := "uuid4-hex", version := "version-config" }

/-- The `SdkWorkflow.__init__` constructor: before anything else it walks
every node and every live upstream reference of that node and raises a
`FlyteAssertion` when some upstream node has no id; then the optional
arguments are defaulted and the parent `WorkflowTemplate` constructor is
invoked with the given nodes, interface and output bindings. -/
def SdkWorkflow.create (nodes : List SdkNode) (iface : TypedInterface)
    (outputBindings : List Binding) (id : Option Identifier)
    (metadata : Option WorkflowMetadata) (metadataDefaults : Option WorkflowMetadataDefaults) :
    Except Err SdkWorkflow :=
  if nodes.any (fun n => n.upstream.any (fun u => u.nodeId.isNone)) then
    Except.error (Err.flyteAssertion
      ("Some nodes contained in the workflow were not found in the workflow description"))
  else
    Except.ok { wfId := id.getD uuidPlaceholderId, metadata := metadata.getD (),
                metadataDefaults := metadataDefaults.getD (), interface := iface,
                nodes := nodes, outputs := outputBindings }

/-- The wire-model node of a workflow template (`_workflow_models.Node`):
id, metadata, input bindings, declared upstream ids and the wrapped
executable reference. -/
structure ModelNode where
  id : Option String
  metadata : NodeMetadata
  inputs : List Binding
  upstreamNodeIds : List (Option String)
  target : NodeTarget
deriving DecidableEq, Repr

/-- The wire-model workflow template (`_workflow_models.WorkflowTemplate`). -/
structure WorkflowTemplateModel where
  id : Identifier
  metadata : WorkflowMetadata
  metadataDefaults : WorkflowMetadataDefaults
  interface : TypedInterface
  nodes : List ModelNode
  outputs : List Binding

/-- Modelled from the spec: the system-reserved start node id of
`flytekit.common.constants` (not among the sources); only its
distinctness matters to the verified properties. -/
def startNodeId : String := "start-node"

/-- Modelled from the spec: the system-reserved end node id of
`flytekit.common.constants` (not among the sources). -/
def endNodeId : String := "end-node"

/-- The `SdkWorkflow.get_non_system_nodes` classmethod: keep the nodes
whose id is not one of the two system-reserved ids. -/
def getNonSystemNodes (nodes : List ModelNode) : List ModelNode :=
  nodes.filter (fun n => decide (n.id ≠ some startNodeId ∧ n.id ≠ some endNodeId))

/-- Modelled from the spec: `SdkNode.promote_from_model`
(`flytekit.common.nodes`, not among the sources; spec section 4.6): a
live node is rebuilt from the wire node with the same id, metadata,
bindings and stored upstream-id list, an empty live upstream list (to be
wired by the dependency operator), and its executable resolved by
identifier. -/
def promoteNode (m : ModelNode) : SdkNode :=
  SdkNode.mk m.id m.metadata m.inputs m.upstreamNodeIds [] m.target

/-- A printable form of an optional node id, used in `KeyError` payloads. -/
def idKeyStr (k : Option String) : String := k.getD "None"

/-- The inner loop of the upstream-wiring pass of `promote_from_model`:
for each declared upstream id of the current node, look the id up in the
node map (a missing id is the dict subscript `KeyError`) and append the
found node to the current node via the dependency operator. -/
def wireUpstreamIds (d : List (Option String × SdkNode)) :
    SdkNode → List (Option String) → Except Err SdkNode
  | cur, [] => Except.ok cur
  | cur, uid :: rest =>
    match assocGet d uid with
    | none => Except.error (Err.keyError (idKeyStr uid))
    | some u => wireUpstreamIds d (cur.appendUpstream u) rest

/-- One iteration of the upstream-wiring pass: fetch the current node
from the node map by the model node id, wire all of its declared
upstream ids, and store the updated node back (the in-place mutation of
the shared node object is embedded by writing the updated value into the
map at the same key). -/
def wireNode (d : List (Option String × SdkNode)) (m : ModelNode) :
    Except Err (List (Option String × SdkNode)) :=
  match assocGet d m.id with
  | none => Except.error (Err.keyError (idKeyStr m.id))
  | some current =>
    match wireUpstreamIds d current current.upstreamNodeIds with
    | Except.error e => Except.error e
    | Except.ok wired => Except.ok (dictSet d m.id wired)

/-- The whole upstream-wiring pass of `promote_from_model`, iterating the
non-system model nodes in template order. -/
def wireAll : List (Option String × SdkNode) → List ModelNode →
    Except Err (List (Option String × SdkNode))
  | d, [] => Except.ok d
  | d, m :: rest =>
    match wireNode d m with
    | Except.error e => Except.error e
    | Except.ok d2 => wireAll d2 rest

/-- The `SdkWorkflow.promote_from_model` classmethod: filter out the
system-reserved start/end nodes, build the id-keyed node map from the
promoted nodes, wire the upstream dependencies by id lookup, and hand the
map values (in key insertion order) to the `SdkWorkflow` constructor
together with the template id, metadata records, promoted interface and
output bindings. -/
def SdkWorkflow.promoteFromModel (base : WorkflowTemplateModel) : Except Err SdkWorkflow :=
  let nonSystem := getNonSystemNodes base.nodes
  let nodeMap := pyDict (nonSystem.map (fun m => (m.id, promoteNode m)))
  match wireAll nodeMap nonSystem with
  | Except.error e => Except.error e
  | Except.ok wired =>
    SdkWorkflow.create (wired.map Prod.snd) base.interface base.outputs
      (some base.id) (some base.metadata) (some base.metadataDefaults)

/-- The serialization of one live node back into the wire model: the
stored fields pass through unchanged (`to_flyte_idl` on the node wire
model re-emits the stored `upstream_node_ids` snapshot). -/
def serializeNode (n : SdkNode) : ModelNode :=
  { id := n.nodeId, metadata := n.nodeMetadata, inputs := n.nodeBindings,
    upstreamNodeIds := n.upstreamNodeIds, target := n.nodeTarget }

/-- The template part of `SdkWorkflow.serialize`: the `WorkflowSpec` wire
message wraps the primary workflow template (whose fields are re-emitted
from the entity, the node list through `serializeNode`) together with the
collected sub-workflow templates; `promote_from_model` consumes the
primary template, which is what this function produces. -/
def SdkWorkflow.serializeTemplate (w : SdkWorkflow) : WorkflowTemplateModel :=
  { id := w.wfId, metadata := w.metadata, metadataDefaults := w.metadataDefaults,
    interface := w.interface, nodes := w.nodes.map serializeNode, outputs := w.outputs }

/-- The printable identifier (`str(id_to_register)`). -/
def identifierStr (i : Identifier) : String :=
  i.project ++ ":" ++ i.domain ++ ":" ++ i.name ++ ":" ++ i.version

/-- The `id_to_register` identifier assembled by `SdkWorkflow.register`
from its four arguments. -/
def mkRegistrationId (project dom nm ver : String) : Identifier :=
  { resourceType := ResourceType.workflow, project := project, domain := dom,
    name := nm, version := ver }

/-- The `SdkWorkflow.register` method.  `validate()` is a pass.  A fresh
identifier is assembled and written on the entity, with the previous one
saved in `old_id`.  The whole remote interaction of the try block (client
construction, sub-workflow collection and the `create_workflow` call) is
abstracted into the `createWorkflow` parameter, the remote control plane
being an external collaborator; its error is any exception the try body
raises.  On success the identifier is written again and the printable id
returned; a `FlyteEntityAlreadyExistsException` is swallowed (`pass`,
returning `None`, the identifier staying at the newly assigned value);
any other exception rolls the identifier back to `old_id` and re-raises
unchanged.  The call is made exactly once: no retry. -/
def SdkWorkflow.register (w : SdkWorkflow) (project dom nm ver : String)
    (createWorkflow : Identifier → Except Err Unit) :
    Except Err (Option String) × SdkWorkflow :=
  let idToRegister : Identifier := mkRegistrationId project dom nm ver
  let oldId := w.wfId
  let w1 : SdkWorkflow := { w with wfId := idToRegister }
  match createWorkflow idToRegister with
  | Except.ok _ => (Except.ok (some (identifierStr idToRegister)), { w1 with wfId := idToRegister })
  | Except.error Err.flyteEntityAlreadyExists => (Except.ok none, w1)
  | Except.error e => (Except.error e, { w1 with wfId := oldId })

/-- The `SdkWorkflow.__call__` method (adding a previously built workflow
as a sub-workflow node): positional arguments raise a `FlyteAssertion`;
otherwise the keyword arguments are resolved to bindings plus upstream
nodes and an id-less node is built with the fixed placeholder metadata
(`NodeMetadata("placeholder", timedelta(), RetryStrategy(0))`), the
bindings sorted by variable name and the workflow itself as executable. -/
def sdkWorkflowCall (w : SdkWorkflow) (numPositionalArgs : Nat)
    (kwargs : List (String × BindingValue)) : Except Err SdkNode :=
  if numPositionalArgs > 0 then
    Except.error (Err.flyteAssertion
      ("When adding a workflow as a node in a workflow, all inputs must be specified with kwargs only"))
  else
    match createBindingsForInputs w.interface kwargs with
    | Except.error e => Except.error e
    | Except.ok (bindings, upstreamNodes) =>
      Except.ok (SdkNode.mk none
        { name := "placeholder", timeout := 0, retries := 0, interruptible := none }
        (sortBindings bindings) (upstreamNodes.map SdkNode.nodeId) upstreamNodes
        (NodeTarget.subWorkflowRef w.wfId))

/-- The default variable used to state lookups that are known to succeed. -/
def defaultVariable : Variable := { type := FlyteLiteralType.integer, description := "" }

/-- The output-handle list a multi-output compile-mode task invocation
returns: one handle per declared output name, in declaration order, all
wrapping the same node. -/
def handlesOf (iface : TypedInterface) (node : SdkNode) (outs : List String) :
    List NodeOutput :=
  outs.map (fun o =>
    { sdkNode := node, var := o, sdkType := ((assocGet iface.outputs o).getD defaultVariable).type })

/-- The single handle a one-output compile-mode task invocation returns. -/
def singleHandleOf (iface : TypedInterface) (node : SdkNode) (o : String) : NodeOutput :=
  { sdkNode := node, var := o, sdkType := ((assocGet iface.outputs o).getD defaultVariable).type }

/-- The strict variable-name order on bindings, used to show that two
sorted binding lists over the same distinct variable names coincide. -/
def bindingLt (a b : Binding) : Prop := a.var < b.var

instance : DecidableRel bindingLt := fun a b => inferInstanceAs (Decidable (a.var < b.var))

instance : IsAntisymm Binding bindingLt :=
  ⟨fun a _ h h2 => absurd (lt_trans h h2) (lt_irrefl a.var)⟩

/-- Replace the live upstream list of a node (a description helper for
stating what the wiring pass produces; not an operation of the sources). -/
def SdkNode.withUpstream : SdkNode → List SdkNode → SdkNode
  | SdkNode.mk i m b ids _ t, u => SdkNode.mk i m b ids u t

/-- Whether a computation ended in a dict-lookup `KeyError`. -/
def isKeyError {α : Type} : Except Err α → Bool
  | Except.error (Err.keyError _) => true
  | _ => false

/-- The observable content of a workflow entity compared across the
serialize / promote round trip: identifier, interface, output bindings,
the wire form of every node (in order) and the per-node list of live
upstream ids (the dependency structure). -/
def wfObs (w : SdkWorkflow) :
    Identifier × TypedInterface × List Binding × List ModelNode × List (List (Option String)) :=
  (w.wfId, w.interface, w.outputs, w.nodes.map serializeNode,
    w.nodes.map (fun n => n.upstream.map SdkNode.nodeId))

/-- A two-input integer variable map, the interface of the concrete
sample task used to instantiate the proved statements. -/
def sampleIface : TypedInterface :=
  { inputs := [("a", { type := FlyteLiteralType.integer, description := "a" }),
               ("b", { type := FlyteLiteralType.integer, description := "b" })],
    outputs := [("x", { type := FlyteLiteralType.integer, description := "x" }),
                ("y", { type := FlyteLiteralType.integer, description := "y" })] }

/-- The sample task metadata record. -/
def sampleMetadata : TaskMetadata :=
  { discoverable := false,
    runtime := { runtimeType := RuntimeType.flyteSdk, version := "1.2.3", flavor := "python" },
    timeout := 0, retries := 0, interruptible := none,
    discoveryVersion := "", deprecatedErrorMessage := "" }

/-- A concrete two-output task over `sampleIface`. -/
def sampleTask : PythonTask :=
  { interface := sampleIface, metadata := sampleMetadata,
    outputs := some ["x", "y"], taskId := some taskDefaultId }

/-- A concrete single-output task over `sampleIface`. -/
def sampleTask1 : PythonTask :=
  { interface := sampleIface, metadata := sampleMetadata,
    outputs := some ["x"], taskId := some taskDefaultId }

/-- A concrete keyword-argument list binding both sample inputs. -/
def sampleKwargs : List (String × BindingValue) :=
  [("a", BindingValue.lit (Lit.intLit 3)), ("b", BindingValue.lit (Lit.intLit 4))]

/-- The same keyword arguments as `sampleKwargs` in the other order. -/
def sampleKwargsRev : List (String × BindingValue) :=
  [("b", BindingValue.lit (Lit.intLit 4)), ("a", BindingValue.lit (Lit.intLit 3))]

/-- The node a compile-mode invocation of `sampleTask` on `sampleKwargs`
constructs. -/
def sampleNode : SdkNode :=
  SdkNode.mk none { name := "", timeout := 0, retries := 0, interruptible := none }
    [{ var := "a", data := BindingData.literal (Lit.intLit 3) },
     { var := "b", data := BindingData.literal (Lit.intLit 4) }]
    [] [] (NodeTarget.taskRef (some taskDefaultId))

/-- A concrete workflow holding one plain task node, used to instantiate
the constructor and registration statements. -/
def sampleWorkflow : SdkWorkflow :=
  { wfId := workflowDefaultId, metadata := (), metadataDefaults := (),
    interface := sampleIface, nodes := [sampleNode], outputs := [] }

/-- A node carrying an id-less upstream reference, which the workflow
constructor must reject. -/
def danglingNode : SdkNode :=
  SdkNode.mk (some "n0") { name := "", timeout := 0, retries := 0, interruptible := none }
    [] [none] [sampleNode] (NodeTarget.taskRef (some taskDefaultId))

/-- A concrete first node (no upstream) for the round-trip sample. -/
def rtNode0 : SdkNode :=
  SdkNode.mk (some "n0") { name := "", timeout := 0, retries := 0, interruptible := none }
    [] [] [] (NodeTarget.taskRef (some taskDefaultId))

/-- A concrete second node depending on `rtNode0` for the round-trip
sample. -/
def rtNode1 : SdkNode :=
  SdkNode.mk (some "n1") { name := "", timeout := 0, retries := 0, interruptible := none }
    [{ var := "a", data := BindingData.promise (some "n0") ("x") }]
    [some "n0"] [rtNode0] (NodeTarget.taskRef (some taskDefaultId))

/-- A concrete two-node workflow whose dependency structure survives the
round trip. -/
def rtWorkflow : SdkWorkflow :=
  { wfId := workflowDefaultId, metadata := (), metadataDefaults := (),
    interface := sampleIface, nodes := [rtNode0, rtNode1], outputs := [] }

/-- A workflow whose single node carries the system-reserved start-node
id; `promote_from_model` filters the node away, so the round trip loses
it. -/
def startIdWorkflow : SdkWorkflow :=
  { wfId := workflowDefaultId, metadata := (), metadataDefaults := (),
    interface := { inputs := [], outputs := [] },
    nodes := [SdkNode.mk (some startNodeId)
      { name := "", timeout := 0, retries := 0, interruptible := none } [] [] []
      NodeTarget.branchRef],
    outputs := [] }

/-- A template whose single non-system node declares an upstream id that
no node of the template carries. -/
def ghostTemplate : WorkflowTemplateModel :=
  { id := workflowDefaultId, metadata := (), metadataDefaults := (),
    interface := { inputs := [], outputs := [] },
    nodes := [{ id := some "n0",
                metadata := { name := "", timeout := 0, retries := 0, interruptible := none },
                inputs := [], upstreamNodeIds := [some "ghost"],
                target := NodeTarget.branchRef }],
    outputs := [] }

/-- A template with one plain node and the two system start / end nodes. -/
def plainTemplate : WorkflowTemplateModel :=
  { id := workflowDefaultId, metadata := (), metadataDefaults := (),
    interface := { inputs := [], outputs := [] },
    nodes := [{ id := some startNodeId,
                metadata := { name := "", timeout := 0, retries := 0, interruptible := none },
                inputs := [], upstreamNodeIds := [], target := NodeTarget.branchRef },
              { id := some "n0",
                metadata := { name := "", timeout := 0, retries := 0, interruptible := none },
                inputs := [], upstreamNodeIds := [], target := NodeTarget.branchRef },
              { id := some endNodeId,
                metadata := { name := "", timeout := 0, retries := 0, interruptible := none },
                inputs := [], upstreamNodeIds := [], target := NodeTarget.branchRef }],
    outputs := [] }

/-- The binding one keyword argument resolves to (closed form of one
step of `createBindingsForInputs`). -/
def bindingOfKw (p : String × BindingValue) : Binding :=
  match p.2 with
  | BindingValue.lit l => { var := p.1, data := BindingData.literal l }
  | BindingValue.nodeOut h => { var := p.1, data := BindingData.promise h.sdkNode.nodeId h.var }

/-- The upstream node one keyword argument contributes, if any (closed
form of one step of `createBindingsForInputs`). -/
def upstreamOfKw (p : String × BindingValue) : Option SdkNode :=
  match p.2 with
  | BindingValue.lit _ => none
  | BindingValue.nodeOut h => some h.sdkNode

/-- The task the decorator builds for a function annotated with an empty
tuple return type and no `outputs` argument (the one signature for which
the decorator succeeds while leaving the raw outputs value `None`). -/
def noneOutputsTask : PythonTask :=
  { interface := { inputs := [], outputs := [] }, metadata := sampleMetadata,
    outputs := none, taskId := some taskDefaultId }

/-- The node a compile-mode invocation with no keyword arguments builds. -/
def emptyKwNode : SdkNode :=
  SdkNode.mk none { name := "", timeout := 0, retries := 0, interruptible := none }
    [] [] [] (NodeTarget.taskRef (some taskDefaultId))

/-- The node adding `sampleWorkflow` as a sub-workflow node with the
sample keyword arguments builds. -/
def sdkWfSampleNode : SdkNode :=
  SdkNode.mk none { name := "placeholder", timeout := 0, retries := 0, interruptible := none }
    [{ var := "a", data := BindingData.literal (Lit.intLit 3) },
     { var := "b", data := BindingData.literal (Lit.intLit 4) }]
    [] [] (NodeTarget.subWorkflowRef workflowDefaultId)

/-- The live node promoting the plain `n0` wire node of `plainTemplate`. -/
def promotedPlainNode : SdkNode :=
  SdkNode.mk (some "n0") { name := "", timeout := 0, retries := 0, interruptible := none }
    [] [] [] NodeTarget.branchRef

/-- The workflow `promote_from_model` rebuilds from `plainTemplate`: the
two system nodes are dropped and the plain node survives. -/
def promotedPlainWorkflow : SdkWorkflow :=
  { wfId := workflowDefaultId, metadata := (), metadataDefaults := (),
    interface := { inputs := [], outputs := [] },
    nodes := [promotedPlainNode], outputs := [] }

/-- A workflow entity with the fields of `w` but a replaced node list
(the shape `promote_from_model` hands to the constructor). -/
def rebuildWorkflow (w : SdkWorkflow) (nodes : List SdkNode) : SdkWorkflow :=
  { wfId := w.wfId, metadata := w.metadata, metadataDefaults := w.metadataDefaults,
    interface := w.interface, nodes := nodes, outputs := w.outputs }

/-- A promoted-and-wired live node realizes a wire-model node: it
serializes back to exactly that model node, and its live upstream
references carry exactly the declared upstream ids, in order. -/
def NodeMatchesModel (v : SdkNode) (m : ModelNode) : Prop :=
  serializeNode v = m ∧ v.upstream.map SdkNode.nodeId = m.upstreamNodeIds

/-! ### Theorems -/

/-- Characterization of the output-naming loop: a run starting at index
`i` succeeds when the declared-name list is long enough for every
remaining output expression (in particular always when no expression
remains), and raises the index error as soon as the running index falls
off the end of the declared-name list. -/
theorem nameOutputsLoop_spec (names : List String) :
    ∀ (args : List NodeOutput) (i : Nat),
      (i + args.length ≤ names.length → nameOutputsLoop (some names) args i = Except.ok ()) ∧
      (args ≠ [] → names.length < i + args.length →
        nameOutputsLoop (some names) args i = Except.error Err.indexError)
  | [], _ => ⟨fun _ => rfl, fun h _ => absurd rfl h⟩
  | a :: rest, i => by
    constructor
    · intro hle
      have hi : i < names.length := by
        simp only [List.length_cons] at hle
        omega
      have hrest := (nameOutputsLoop_spec names rest (i + 1)).1 (by
        simp only [List.length_cons] at hle
        omega)
      simp [nameOutputsLoop, hi, hrest]
    · intro _ hlt
      by_cases hi : i < names.length
      · have hne : rest ≠ [] := by
          intro hrest
          subst hrest
          simp only [List.length_cons, List.length_nil] at hlt
          omega
        have hrest := (nameOutputsLoop_spec names rest (i + 1)).2 hne (by
          simp only [List.length_cons] at hlt
          omega)
        simp [nameOutputsLoop, hi, hrest]
      · simp [nameOutputsLoop, hi]

/-- C8: the interface builder raises the `SchemaMismatch` exceptions of
`get_interface_from_task_info`: the `1fkdsa39mlsda` exception whenever
the return annotation is absent while the output-name list is non-empty,
and the output-length-mismatch exception whenever the output-name count
differs from the normalized return-type count (a single non-tuple return
annotation counting as one return type); in particular two output names
against a single non-tuple return annotation fail that way. -/
theorem c8_schema_mismatch (inputs : List (String × PyType)) (names : List String)
    (r : RetAnn) (t : PyType) (hnames : names ≠ [])
    (hlen : names.length ≠ (normalizeReturnTypes r).length) :
    getInterfaceFromTaskInfo { inputs := inputs, ret := none } names =
      Except.error (Err.exceptionMsg ("1fkdsa39mlsda")) ∧
    getInterfaceFromTaskInfo { inputs := inputs, ret := some r } names =
      Except.error (Err.exceptionMsg ("Output length mismatch")) ∧
    getInterfaceFromTaskInfo { inputs := inputs, ret := some (RetAnn.single t) } ["x", "y"] =
      Except.error (Err.exceptionMsg ("Output length mismatch")) := by
  have h0 : names.length ≠ 0 := fun h => hnames (List.length_eq_zero.mp h)
  refine ⟨?_, ?_, ?_⟩
  · simp [getInterfaceFromTaskInfo, h0]
  · simp [getInterfaceFromTaskInfo, hlen]
  · simp [getInterfaceFromTaskInfo, normalizeReturnTypes]

/-- Witness for C8 at a concrete signature: no return annotation with one
requested output name, and a single integer return annotation with two
requested output names. -/
theorem c8_schema_mismatch_witness :
    getInterfaceFromTaskInfo { inputs := [], ret := none } ["x", "y"] =
      Except.error (Err.exceptionMsg ("1fkdsa39mlsda")) ∧
    getInterfaceFromTaskInfo { inputs := [], ret := some (RetAnn.single PyType.int) } ["x", "y"] =
      Except.error (Err.exceptionMsg ("Output length mismatch")) ∧
    getInterfaceFromTaskInfo { inputs := [], ret := some (RetAnn.single PyType.int) } ["x", "y"] =
      Except.error (Err.exceptionMsg ("Output length mismatch")) :=
  c8_schema_mismatch [] ["x", "y"] (RetAnn.single PyType.int) PyType.int
    (by decide) (by decide)

/-- C3 counterexample: a builder returning zero output expressions while
one output name is declared has differing counts, yet the wrapper
completes without any error, contradicting the claim that every count
mismatch fails. -/
theorem c3_counterexample :
    (workflowWrapper (some ["only_one"]) []
        (fun s1 => (Except.ok { args := [] }, s1)) 0).1 =
      Except.ok { wfId := workflowDefaultId } ∧
    ([] : List NodeOutput).length ≠ (["only_one"] : List String).length :=
  ⟨rfl, by decide⟩

/-- C3 (amended): with a declared output-name list present, a builder
returning more output expressions than there are declared names makes the
wrapper fail with a builtin index error (in particular two returned
expressions against one declared name fail); a builder returning at most
as many expressions as declared names passes the naming loop with no
arity check at all and the wrapper completes. -/
theorem c3_output_arity (names : List String) (annInputs : List (String × PyType))
    (im : List (String × Variable)) (builder : Nat → (Except Err WorkflowOutputs) × Nat)
    (args : List NodeOutput) (s s2 : Nat)
    (hvm : getVariableMap annInputs = Except.ok im)
    (hb : builder 1 = (Except.ok { args := args }, s2)) :
    (names.length < args.length →
      (workflowWrapper (some names) annInputs builder s).1 = Except.error Err.indexError) ∧
    (args.length ≤ names.length →
      (workflowWrapper (some names) annInputs builder s).1 =
        Except.ok { wfId := workflowDefaultId }) := by
  constructor
  · intro hlt
    have hne : args ≠ [] := by
      intro h
      subst h
      simp only [List.length_nil] at hlt
      omega
    have hloop := (nameOutputsLoop_spec names args 0).2 hne (by omega)
    simp [workflowWrapper, hvm, hb, hloop]
  · intro hle
    have hloop := (nameOutputsLoop_spec names args 0).1 (by omega)
    simp [workflowWrapper, hvm, hb, hloop]

/-- Witness for C3 (amended) at concrete data: two returned node-output
handles against the single declared name fail with the index error, and
one returned handle against the single declared name passes. -/
theorem c3_output_arity_witness :
    (workflowWrapper (some ["only_one"]) []
        (fun s1 => (Except.ok { args := [
          { sdkNode := sampleNode, var := "x", sdkType := FlyteLiteralType.integer },
          { sdkNode := sampleNode, var := "y", sdkType := FlyteLiteralType.integer }] }, s1))
        0).1 = Except.error Err.indexError ∧
    (workflowWrapper (some ["only_one"]) []
        (fun s1 => (Except.ok { args := [
          { sdkNode := sampleNode, var := "x", sdkType := FlyteLiteralType.integer }] }, s1))
        0).1 = Except.ok { wfId := workflowDefaultId } :=
  ⟨(c3_output_arity ["only_one"] [] [] _ _ 0 1 rfl rfl).1 (by decide),
   (c3_output_arity ["only_one"] [] [] _ _ 0 1 rfl rfl).2 (by decide)⟩

/-- C4 counterexample: a builder that raises leaves the process-wide
compile flag at `1` although it was `0` before the invocation: the
save/restore is skipped on the raising path, contradicting the claim
that the flag is restored for every invocation including raising ones. -/
theorem c4_counterexample :
    (workflowWrapper none []
        (fun s1 => (Except.error (Err.exceptionMsg ("boom")), s1)) 0).2 = 1 ∧
    (1 : Nat) ≠ 0 :=
  ⟨rfl, by decide⟩

/-- C4 (amended): for every wrapper invocation that completes
successfully, the compile flag after the invocation equals its value
before it; the restore is only reached on the non-raising path. -/
theorem c4_flag_restore (outputs : Option (List String))
    (annInputs : List (String × PyType))
    (builder : Nat → (Except Err WorkflowOutputs) × Nat) (s s2 : Nat) (w : Workflow)
    (h : workflowWrapper outputs annInputs builder s = (Except.ok w, s2)) : s2 = s := by
  unfold workflowWrapper at h
  split at h
  · exact absurd h (by simp)
  · split at h
    · exact absurd h (by simp)
    · split at h
      · exact absurd h (by simp)
      · simp only [Prod.mk.injEq] at h
        exact h.2.symm

/-- Witness for C4 (amended): a successfully completing invocation that
entered with flag value `5` exits with flag value `5`. -/
theorem c4_flag_restore_witness :
    workflowWrapper none [] (fun s1 => (Except.ok { args := [] }, s1)) 5 =
      (Except.ok { wfId := workflowDefaultId }, 5) ∧ (5 : Nat) = 5 :=
  ⟨rfl, c4_flag_restore none [] (fun s1 => (Except.ok { args := [] }, s1)) 5 5
    { wfId := workflowDefaultId } rfl⟩

/-- C5: the workflow constructor fails with the `FlyteAssertion` exactly
when some accumulated node records a live upstream reference whose id is
unresolved, and constructs the workflow entity when every upstream
reference of every node carries an id. -/
theorem c5_upstream_id_invariant (nodes : List SdkNode) (iface : TypedInterface)
    (outs : List Binding) (id : Option Identifier) (md : Option WorkflowMetadata)
    (mdd : Option WorkflowMetadataDefaults) :
    ((∃ n ∈ nodes, ∃ u ∈ n.upstream, u.nodeId = none) →
      SdkWorkflow.create nodes iface outs id md mdd =
        Except.error (Err.flyteAssertion
          ("Some nodes contained in the workflow were not found in the workflow description"))) ∧
    ((∀ n ∈ nodes, ∀ u ∈ n.upstream, (u.nodeId).isSome) →
      SdkWorkflow.create nodes iface outs id md mdd =
        Except.ok { wfId := id.getD uuidPlaceholderId, metadata := md.getD (),
                    metadataDefaults := mdd.getD (), interface := iface,
                    nodes := nodes, outputs := outs }) := by
  constructor
  · intro hex
    obtain ⟨n, hn, u, hu, hnone⟩ := hex
    have hc : (nodes.any fun n => n.upstream.any fun u => u.nodeId.isNone) = true := by
      simp only [List.any_eq_true]
      exact ⟨n, hn, u, hu, by simp [hnone]⟩
    simp [SdkWorkflow.create, hc]
  · intro hall
    have hc : (nodes.any fun n => n.upstream.any fun u => u.nodeId.isNone) = false := by
      rw [List.any_eq_false]
      intro n hn
      rw [Bool.not_eq_true, List.any_eq_false]
      intro u hu
      have h2 := hall n hn u hu
      rw [Bool.not_eq_true]
      cases hcase : u.nodeId with
      | none => rw [hcase] at h2; exact absurd h2 (by simp)
      | some x => simp [Option.isNone]
    simp [SdkWorkflow.create, hc]

/-- Witness for C5: a node with an id-less upstream reference is
rejected, and a plain node with no upstream constructs. -/
theorem c5_upstream_id_invariant_witness :
    SdkWorkflow.create [danglingNode] sampleIface [] none none none =
      Except.error (Err.flyteAssertion
        ("Some nodes contained in the workflow were not found in the workflow description")) ∧
    SdkWorkflow.create [rtNode0] sampleIface [] (some workflowDefaultId) none none =
      Except.ok { wfId := workflowDefaultId, metadata := (), metadataDefaults := (),
                  interface := sampleIface, nodes := [rtNode0], outputs := [] } :=
  ⟨(c5_upstream_id_invariant [danglingNode] sampleIface [] none none none).1
      ⟨danglingNode, by simp, sampleNode, by simp [danglingNode, SdkNode.upstream],
        by simp [sampleNode, SdkNode.nodeId]⟩,
   (c5_upstream_id_invariant [rtNode0] sampleIface [] (some workflowDefaultId) none none).2
      (by
        intro n hn u hu
        simp only [List.mem_singleton] at hn
        subst hn
        simp [rtNode0, SdkNode.upstream] at hu)⟩

/-- C7: the registration call treats the already-exists failure of the
remote create call as a successful no-op (returning `None`, raising
nothing), and on any other failure rolls the entity identifier back to
its value before the call and re-raises that same error. -/
theorem c7_register (w : SdkWorkflow) (project dom nm ver : String)
    (createWorkflow : Identifier → Except Err Unit) (e : Err)
    (he : e ≠ Err.flyteEntityAlreadyExists) :
    (createWorkflow (mkRegistrationId project dom nm ver) =
        Except.error Err.flyteEntityAlreadyExists →
      SdkWorkflow.register w project dom nm ver createWorkflow =
        (Except.ok none, { w with wfId := mkRegistrationId project dom nm ver })) ∧
    (createWorkflow (mkRegistrationId project dom nm ver) = Except.error e →
      SdkWorkflow.register w project dom nm ver createWorkflow = (Except.error e, w)) := by
  constructor
  · intro hc
    simp [SdkWorkflow.register, hc]
  · intro hc
    cases e
    case flyteEntityAlreadyExists => exact absurd rfl he
    all_goals
      simp only [SdkWorkflow.register, hc]

/-- Witness for C7: registering the sample workflow against a remote
that reports already-exists returns the no-op result, and against a
remote failing with a plain exception re-raises it with the identifier
rolled back. -/
theorem c7_register_witness :
    SdkWorkflow.register sampleWorkflow "p" "d" "n" "v"
        (fun _ => Except.error Err.flyteEntityAlreadyExists) =
      (Except.ok none, { sampleWorkflow with wfId := mkRegistrationId "p" "d" "n" "v" }) ∧
    SdkWorkflow.register sampleWorkflow "p" "d" "n" "v"
        (fun _ => Except.error (Err.exceptionMsg ("500"))) =
      (Except.error (Err.exceptionMsg ("500")), sampleWorkflow) :=
  ⟨(c7_register sampleWorkflow "p" "d" "n" "v"
      (fun _ => Except.error Err.flyteEntityAlreadyExists)
      (Err.exceptionMsg ("500")) (by decide)).1 rfl,
   (c7_register sampleWorkflow "p" "d" "n" "v"
      (fun _ => Except.error (Err.exceptionMsg ("500")))
      (Err.exceptionMsg ("500")) (by decide)).2 rfl⟩

/-- Closed form of the binding resolver when every keyword argument
names a declared input: the bindings are the per-argument bindings in
keyword order and the upstream nodes the node-output contributions in
keyword order. -/
theorem createBindings_spec (iface : TypedInterface) :
    ∀ (kwargs : List (String × BindingValue)),
      (∀ p ∈ kwargs, (assocGet iface.inputs p.1).isSome) →
      createBindingsForInputs iface kwargs =
        Except.ok (kwargs.map bindingOfKw, kwargs.filterMap upstreamOfKw)
  | [], _ => rfl
  | (k, v) :: rest, hall => by
    have hk : (assocGet iface.inputs k).isNone = false := by
      have hs := hall (k, v) (List.mem_cons_self _ _)
      cases hx : assocGet iface.inputs k with
      | none => rw [hx] at hs; exact absurd hs (by simp)
      | some _ => simp [Option.isNone]
    have ih := createBindings_spec iface rest (fun p hp => hall p (List.mem_cons_of_mem _ hp))
    cases v with
    | lit l => simp [createBindingsForInputs, hk, ih, bindingOfKw, upstreamOfKw]
    | nodeOut h => simp [createBindingsForInputs, hk, ih, bindingOfKw, upstreamOfKw]

/-- Any successful run of the binding resolver produces exactly the
per-argument bindings and upstream contributions in keyword order. -/
theorem createBindings_ok_eq (iface : TypedInterface) :
    ∀ (kwargs : List (String × BindingValue)) (bs : List Binding) (ups : List SdkNode),
      createBindingsForInputs iface kwargs = Except.ok (bs, ups) →
      bs = kwargs.map bindingOfKw ∧ ups = kwargs.filterMap upstreamOfKw
  | [], bs, ups, h => by
    simp only [createBindingsForInputs, Except.ok.injEq, Prod.mk.injEq] at h
    exact ⟨h.1.symm, h.2.symm⟩
  | (k, v) :: rest, bs, ups, h => by
    by_cases hk : (assocGet iface.inputs k).isNone
    · simp [createBindingsForInputs, hk] at h
    · cases hrec : createBindingsForInputs iface rest with
      | error e =>
        simp [createBindingsForInputs, hk, hrec] at h
      | ok pr =>
        obtain ⟨bs2, ups2⟩ := pr
        have ih := createBindings_ok_eq iface rest bs2 ups2 hrec
        cases v with
        | lit l =>
          simp only [createBindingsForInputs, hk, if_false, Bool.false_eq_true, hrec,
            Except.ok.injEq, Prod.mk.injEq] at h
          refine ⟨?_, ?_⟩
          · rw [← h.1, ih.1]
            simp [bindingOfKw]
          · rw [← h.2, ih.2]
            simp [upstreamOfKw]
        | nodeOut hh =>
          simp only [createBindingsForInputs, hk, if_false, Bool.false_eq_true, hrec,
            Except.ok.injEq, Prod.mk.injEq] at h
          refine ⟨?_, ?_⟩
          · rw [← h.1, ih.1]
            simp [bindingOfKw]
          · rw [← h.2, ih.2]
            simp [upstreamOfKw]

/-- The variable of the binding a keyword argument resolves to is the
keyword name. -/
theorem bindingOfKw_var (p : String × BindingValue) : (bindingOfKw p).var = p.1 := by
  cases hp : p.2 <;> simp [bindingOfKw, hp]

/-- The sorted binding list is sorted by variable name. -/
theorem sortBindings_sorted (bs : List Binding) : List.Sorted bindingLe (sortBindings bs) :=
  List.sorted_insertionSort bindingLe bs

/-- The sorted binding list is a permutation of the input. -/
theorem sortBindings_perm (bs : List Binding) : (sortBindings bs).Perm bs :=
  List.perm_insertionSort bindingLe bs

/-- A binding list sorted by variable name with pairwise distinct
variable names is strictly sorted. -/
theorem sorted_lt_of_le_nodup (l : List Binding) (hs : List.Sorted bindingLe l)
    (hnd : (l.map Binding.var).Nodup) : List.Sorted bindingLt l := by
  have hne : List.Pairwise (fun a b : Binding => a.var ≠ b.var) l := List.pairwise_map.mp hnd
  exact (hs.and hne).imp (fun h => lt_of_le_of_ne h.1 h.2)

/-- Two sorted permutations of a binding list with distinct variable
names coincide. -/
theorem sorted_perm_nodup_eq (l1 l2 : List Binding) (hp : l1.Perm l2)
    (hs1 : List.Sorted bindingLe l1) (hs2 : List.Sorted bindingLe l2)
    (hnd : (l1.map Binding.var).Nodup) : l1 = l2 :=
  List.eq_of_perm_of_sorted hp (sorted_lt_of_le_nodup l1 hs1 hnd)
    (sorted_lt_of_le_nodup l2 hs2 (((hp.map Binding.var).nodup_iff).mp hnd))

/-- Sorting the resolved bindings of two keyword orderings of the same
argument set gives identical, sorted lists. -/
theorem sortBindings_eq_of_perm (k1 k2 : List (String × BindingValue))
    (hperm : k1.Perm k2) (hnd : (k1.map Prod.fst).Nodup) :
    sortBindings (k1.map bindingOfKw) = sortBindings (k2.map bindingOfKw) ∧
    List.Sorted bindingLe (sortBindings (k1.map bindingOfKw)) := by
  have hvars : (k1.map bindingOfKw).map Binding.var = k1.map Prod.fst := by
    rw [List.map_map]
    exact List.map_congr_left (fun p _ => bindingOfKw_var p)
  have hnd1 : ((k1.map bindingOfKw).map Binding.var).Nodup := by rw [hvars]; exact hnd
  have hp : (sortBindings (k1.map bindingOfKw)).Perm (sortBindings (k2.map bindingOfKw)) :=
    ((sortBindings_perm _).trans (hperm.map bindingOfKw)).trans (sortBindings_perm _).symm
  have hndSorted : ((sortBindings (k1.map bindingOfKw)).map Binding.var).Nodup :=
    (((sortBindings_perm (k1.map bindingOfKw)).map Binding.var).nodup_iff).mpr hnd1
  exact ⟨sorted_perm_nodup_eq _ _ hp (sortBindings_sorted _) (sortBindings_sorted _) hndSorted,
    sortBindings_sorted _⟩

/-- C2: for a task or sub-workflow invocation in compile mode, the
binding list stored on the constructed graph node is sorted by variable
name, and any two keyword-argument orderings of the same argument set
yield nodes with identical binding sequences. -/
theorem c2_binding_canonicalization (t : PythonTask) (w : SdkWorkflow)
    (k1 k2 : List (String × BindingValue)) (n1 n2 m1 m2 : SdkNode)
    (hperm : k1.Perm k2) (hnd : (k1.map Prod.fst).Nodup)
    (h1 : mkTaskNode t k1 = Except.ok n1) (h2 : mkTaskNode t k2 = Except.ok n2)
    (h3 : sdkWorkflowCall w 0 k1 = Except.ok m1) (h4 : sdkWorkflowCall w 0 k2 = Except.ok m2) :
    (n1.nodeBindings = n2.nodeBindings ∧ List.Sorted bindingLe n1.nodeBindings) ∧
    (m1.nodeBindings = m2.nodeBindings ∧ List.Sorted bindingLe m1.nodeBindings) := by
  have key := sortBindings_eq_of_perm k1 k2 hperm hnd
  constructor
  · have e1 : n1.nodeBindings = sortBindings (k1.map bindingOfKw) := by
      unfold mkTaskNode at h1
      cases hcb : createBindingsForInputs t.interface k1 with
      | error e => rw [hcb] at h1; exact absurd h1 (by simp)
      | ok pr =>
        obtain ⟨bs, ups⟩ := pr
        rw [hcb] at h1
        simp only [Except.ok.injEq] at h1
        rw [← h1, (createBindings_ok_eq t.interface k1 bs ups hcb).1]
        rfl
    have e2 : n2.nodeBindings = sortBindings (k2.map bindingOfKw) := by
      unfold mkTaskNode at h2
      cases hcb : createBindingsForInputs t.interface k2 with
      | error e => rw [hcb] at h2; exact absurd h2 (by simp)
      | ok pr =>
        obtain ⟨bs, ups⟩ := pr
        rw [hcb] at h2
        simp only [Except.ok.injEq] at h2
        rw [← h2, (createBindings_ok_eq t.interface k2 bs ups hcb).1]
        rfl
    rw [e1, e2]
    exact key
  · have e1 : m1.nodeBindings = sortBindings (k1.map bindingOfKw) := by
      unfold sdkWorkflowCall at h3
      simp only [gt_iff_lt, lt_irrefl, if_false] at h3
      cases hcb : createBindingsForInputs w.interface k1 with
      | error e => rw [hcb] at h3; exact absurd h3 (by simp)
      | ok pr =>
        obtain ⟨bs, ups⟩ := pr
        rw [hcb] at h3
        simp only [Except.ok.injEq] at h3
        rw [← h3, (createBindings_ok_eq w.interface k1 bs ups hcb).1]
        rfl
    have e2 : m2.nodeBindings = sortBindings (k2.map bindingOfKw) := by
      unfold sdkWorkflowCall at h4
      simp only [gt_iff_lt, lt_irrefl, if_false] at h4
      cases hcb : createBindingsForInputs w.interface k2 with
      | error e => rw [hcb] at h4; exact absurd h4 (by simp)
      | ok pr =>
        obtain ⟨bs, ups⟩ := pr
        rw [hcb] at h4
        simp only [Except.ok.injEq] at h4
        rw [← h4, (createBindings_ok_eq w.interface k2 bs ups hcb).1]
        rfl
    rw [e1, e2]
    exact key

/-- Witness for C2: the sample task and workflow invoked with the two
orderings of the same two keyword arguments produce identical sorted
binding lists. -/
theorem c2_binding_canonicalization_witness :
    (sampleNode.nodeBindings = sampleNode.nodeBindings ∧
      List.Sorted bindingLe sampleNode.nodeBindings) ∧
    ((sdkWfSampleNode.nodeBindings = sdkWfSampleNode.nodeBindings) ∧
      List.Sorted bindingLe sdkWfSampleNode.nodeBindings) := by
  have happ := c2_binding_canonicalization sampleTask sampleWorkflow
    sampleKwargsRev sampleKwargs sampleNode sampleNode sdkWfSampleNode sdkWfSampleNode
    (List.Perm.swap _ _ _) (by decide) rfl rfl rfl rfl
  exact ⟨⟨happ.1.1, happ.1.2⟩, ⟨happ.2.1, happ.2.2⟩⟩

/-- When every requested output name is an interface output, the handle
lookup loop returns the per-output handles in declaration order. -/
theorem lookupOutputHandles_ok (iface : TypedInterface) (node : SdkNode) :
    ∀ (outs : List String), (∀ o ∈ outs, (assocGet iface.outputs o).isSome) →
      lookupOutputHandles iface node outs = Except.ok (handlesOf iface node outs)
  | [], _ => rfl
  | o :: rest, hall => by
    obtain ⟨vv, hv⟩ := Option.isSome_iff_exists.mp (hall o (List.mem_cons_self _ _))
    have ih := lookupOutputHandles_ok iface node rest
      (fun o2 ho2 => hall o2 (List.mem_cons_of_mem _ ho2))
    simp [lookupOutputHandles, outputParameterMapperGet, hv, ih, handlesOf]

/-- The variables of the produced handles are the declared output names
in order. -/
theorem handlesOf_vars (iface : TypedInterface) (node : SdkNode) (outs : List String) :
    (handlesOf iface node outs).map NodeOutput.var = outs := by
  rw [handlesOf, List.map_map]
  exact List.map_congr_left (fun o _ => rfl) |>.trans (List.map_id outs)

/-- Every produced handle wraps the given node. -/
theorem handlesOf_node (iface : TypedInterface) (node : SdkNode) (outs : List String) :
    ∀ h ∈ handlesOf iface node outs, h.sdkNode = node := by
  intro h hh
  rw [handlesOf, List.mem_map] at hh
  obtain ⟨o, _, rfl⟩ := hh
  rfl

/-- C1: a compile-mode task invocation with more than one declared
output returns the tuple of per-output handles: exactly one handle per
declared output name, in declaration order, all wrapping the same
constructed node, with the handle names distinct whenever the declared
names are; with exactly one declared output it returns a single handle
(the `single` constructor, not a one-element tuple). -/
theorem c1_output_handles (t : PythonTask) (outs : List String)
    (kwargs : List (String × BindingValue)) (node : SdkNode)
    (houts : t.outputs = some outs)
    (hnode : mkTaskNode t kwargs = Except.ok node)
    (hiface : ∀ o ∈ outs, (assocGet t.interface.outputs o).isSome)
    (hnd : outs.Nodup) :
    (1 < outs.length →
      pythonTaskCall t 1 0 kwargs =
        Except.ok (TaskCallValue.tupleOf (handlesOf t.interface node outs)) ∧
      (handlesOf t.interface node outs).map NodeOutput.var = outs ∧
      (handlesOf t.interface node outs).length = outs.length ∧
      (∀ h ∈ handlesOf t.interface node outs, h.sdkNode = node) ∧
      ((handlesOf t.interface node outs).map NodeOutput.var).Nodup) ∧
    (∀ o, outs = [o] →
      pythonTaskCall t 1 0 kwargs =
        Except.ok (TaskCallValue.single (singleHandleOf t.interface node o))) := by
  constructor
  · intro hlen
    have hlk := lookupOutputHandles_ok t.interface node outs hiface
    refine ⟨?_, handlesOf_vars t.interface node outs, ?_, handlesOf_node t.interface node outs, ?_⟩
    · simp [pythonTaskCall, hnode, houts, hlen, hlk]
    · rw [handlesOf, List.length_map]
    · rw [handlesOf_vars]
      exact hnd
  · intro o ho
    subst ho
    obtain ⟨vv, hv⟩ := Option.isSome_iff_exists.mp (hiface o (List.mem_cons_self _ _))
    simp [pythonTaskCall, hnode, houts, outputParameterMapperGet, singleHandleOf, hv]

/-- Witness for C1: the two-output sample task returns the two handles
`x` then `y` on the same node, and the one-output sample task returns a
single handle. -/
theorem c1_output_handles_witness :
    (pythonTaskCall sampleTask 1 0 sampleKwargs =
        Except.ok (TaskCallValue.tupleOf (handlesOf sampleIface sampleNode ["x", "y"])) ∧
      (handlesOf sampleIface sampleNode ["x", "y"]).map NodeOutput.var = ["x", "y"] ∧
      (∀ h ∈ handlesOf sampleIface sampleNode ["x", "y"], h.sdkNode = sampleNode)) ∧
    pythonTaskCall sampleTask1 1 0 sampleKwargs =
      Except.ok (TaskCallValue.single (singleHandleOf sampleIface sampleNode "x")) := by
  have h2 := (c1_output_handles sampleTask ["x", "y"] sampleKwargs sampleNode
    rfl rfl (by decide) (by decide)).1 (by decide)
  have h1 := (c1_output_handles sampleTask1 ["x"] sampleKwargs sampleNode
    rfl rfl (by decide) (by decide)).2 "x" rfl
  exact ⟨⟨h2.1, h2.2.1, h2.2.2.2.1⟩, h1⟩

/-- C10: a task built by the decorator without an `outputs` argument
stores the raw `None` on the task object while its interface is the one
built from the empty output-name list; invoking such a task in compile
mode always raises the builtin length-of-`None` type error once the node
has been built, so no task built without declared outputs can be invoked
in compile mode. -/
theorem c10_none_outputs (cache : Bool) (cv : String) (r : Nat) (intr : Option Bool)
    (depr : String) (tmo : Option Int) (ann : TaskAnn) (t : PythonTask)
    (kwargs : List (String × BindingValue)) (node : SdkNode)
    (ht : taskWrapper none cache cv r intr depr tmo ann = Except.ok t)
    (hnode : mkTaskNode t kwargs = Except.ok node) :
    t.outputs = none ∧
    getInterfaceFromTaskInfo ann [] = Except.ok t.interface ∧
    pythonTaskCall t 1 0 kwargs =
      Except.error (Err.typeError ("object of type NoneType has no len")) := by
  unfold taskWrapper at ht
  simp only [Option.getD_none] at ht
  cases hi : getInterfaceFromTaskInfo ann [] with
  | error e => rw [hi] at ht; exact absurd ht (by simp)
  | ok iface =>
    rw [hi] at ht
    simp only [Except.ok.injEq] at ht
    subst ht
    refine ⟨rfl, rfl, ?_⟩
    simp [pythonTaskCall, hnode]

/-- Witness for C10: the decorator applied without outputs to a function
annotated with the empty tuple return type builds a task whose raw
outputs value is `None`, and invoking it in compile mode raises the type
error. -/
theorem c10_none_outputs_witness :
    taskWrapper none false "" 0 none "" none { inputs := [], ret := some (RetAnn.tup []) } =
      Except.ok noneOutputsTask ∧
    pythonTaskCall noneOutputsTask 1 0 [] =
      Except.error (Err.typeError ("object of type NoneType has no len")) :=
  ⟨rfl, (c10_none_outputs false "" 0 none "" none
    { inputs := [], ret := some (RetAnn.tup []) } noneOutputsTask [] emptyKwNode
    rfl rfl).2.2⟩

/-- A successful dict lookup returns a pair of the list. -/
theorem assocGet_mem {K V : Type} [DecidableEq K] :
    ∀ (d : List (K × V)) (k : K) (v : V), assocGet d k = some v → (k, v) ∈ d
  | [], _, _, h => by simp [assocGet] at h
  | p :: rest, k, v, h => by
    by_cases hk : p.1 = k
    · simp only [assocGet, hk, if_true, Option.some.injEq] at h
      subst h
      rw [← hk]
      exact List.mem_cons_self _ _
    · simp only [assocGet, hk, if_false] at h
      exact List.mem_cons_of_mem _ (assocGet_mem rest k v h)

/-- A key of the dict looks up successfully. -/
theorem assocGet_isSome_of_mem {K V : Type} [DecidableEq K] :
    ∀ (d : List (K × V)) (k : K), k ∈ d.map Prod.fst → ∃ v, assocGet d k = some v
  | [], k, h => by simp at h
  | p :: rest, k, h => by
    by_cases hk : p.1 = k
    · exact ⟨p.2, by simp [assocGet, hk]⟩
    · simp only [List.map_cons, List.mem_cons] at h
      rcases h with h | h
      · exact absurd h.symm hk
      · obtain ⟨v, hv⟩ := assocGet_isSome_of_mem rest k h
        exact ⟨v, by simp [assocGet, hk, hv]⟩

/-- Unfolding of a lookup at a cons cell. -/
theorem assocGet_cons {K V : Type} [DecidableEq K] (p : K × V) (rest : List (K × V))
    (k : K) : assocGet (p :: rest) k = if p.1 = k then some p.2 else assocGet rest k :=
  rfl

/-- A non-key looks up to `none`. -/
theorem assocGet_eq_none_of_not_mem {K V : Type} [DecidableEq K] :
    ∀ (d : List (K × V)) (k : K), k ∉ d.map Prod.fst → assocGet d k = none
  | [], _, _ => rfl
  | p :: rest, k, h => by
    simp only [List.map_cons, List.mem_cons, not_or] at h
    have hk : p.1 ≠ k := fun he => h.1 he.symm
    rw [assocGet_cons, if_neg hk]
    exact assocGet_eq_none_of_not_mem rest k h.2

/-- Lookup of a key finds the first pair carrying it. -/
theorem assocGet_append_cons {K V : Type} [DecidableEq K]
    (l1 l2 : List (K × V)) (k : K) (v : V) (h : k ∉ l1.map Prod.fst) :
    assocGet (l1 ++ (k, v) :: l2) k = some v := by
  induction l1 with
  | nil => simp [assocGet]
  | cons p rest ih =>
    simp only [List.map_cons, List.mem_cons, not_or] at h
    have hk : p.1 ≠ k := fun he => h.1 he.symm
    rw [List.cons_append, assocGet_cons, if_neg hk]
    exact ih h.2

/-- A pair found by lookup with distinct keys: direct form. -/
theorem assocGet_of_mem_nodup {K V : Type} [DecidableEq K] :
    ∀ (d : List (K × V)) (k : K) (v : V), (d.map Prod.fst).Nodup → (k, v) ∈ d →
      assocGet d k = some v
  | [], _, _, _, h => by simp at h
  | p :: rest, k, v, hnd, h => by
    simp only [List.map_cons, List.nodup_cons] at hnd
    rcases List.mem_cons.mp h with h | h
    · rw [← h]
      simp [assocGet]
    · have hk : p.1 ≠ k := by
        intro hk
        exact hnd.1 (hk ▸ (List.mem_map.mpr ⟨(k, v), h, rfl⟩))
      simp only [assocGet, hk, if_false]
      exact assocGet_of_mem_nodup rest k v hnd.2 h

/-- Membership in the key list makes the dict `contains` check true. -/
theorem keys_contains_of_mem {K : Type} [DecidableEq K] {ks : List K} {k : K}
    (h : k ∈ ks) : ks.contains k = true :=
  List.elem_eq_true_of_mem h

/-- A true dict `contains` check means key membership. -/
theorem mem_of_keys_contains {K : Type} [DecidableEq K] {ks : List K} {k : K}
    (h : ks.contains k = true) : k ∈ ks :=
  List.mem_of_elem_eq_true h

/-- Writing at an existing key keeps the key sequence. -/
theorem dictSet_keys_of_mem {K V : Type} [DecidableEq K]
    (d : List (K × V)) (k : K) (v : V) (h : k ∈ d.map Prod.fst) :
    (dictSet d k v).map Prod.fst = d.map Prod.fst := by
  have hc : (d.map Prod.fst).contains k = true := keys_contains_of_mem h
  rw [dictSet, if_pos hc, List.map_map]
  refine List.map_congr_left ?_
  intro p _
  by_cases hk : p.1 = k
  · simp [Function.comp, hk]
  · simp [Function.comp, hk]

/-- Writing at a key present in the middle of a dict whose other parts
avoid that key rewrites exactly that entry in place. -/
theorem dictSet_append_cons {K V : Type} [DecidableEq K]
    (l1 l2 : List (K × V)) (k : K) (v w : V)
    (h1 : k ∉ l1.map Prod.fst) (h2 : k ∉ l2.map Prod.fst) :
    dictSet (l1 ++ (k, v) :: l2) k w = l1 ++ (k, w) :: l2 := by
  have hc : ((l1 ++ (k, v) :: l2).map Prod.fst).contains k = true := by
    simp
  have h3 : l1.map (fun p => if p.1 = k then (k, w) else p) = l1 := by
    refine (List.map_congr_left ?_).trans (List.map_id l1)
    intro p hp
    have hk : p.1 ≠ k := fun hk => h1 (hk ▸ List.mem_map.mpr ⟨p, hp, rfl⟩)
    simp [hk]
  have h4 : l2.map (fun p => if p.1 = k then (k, w) else p) = l2 := by
    refine (List.map_congr_left ?_).trans (List.map_id l2)
    intro p hp
    have hk : p.1 ≠ k := fun hk => h2 (hk ▸ List.mem_map.mpr ⟨p, hp, rfl⟩)
    simp [hk]
  rw [dictSet, if_pos hc, List.map_append, List.map_cons, h3, h4]
  simp

/-- Lookup in a pointwise overwrite at one key leaves other keys alone. -/
theorem assocGet_overwrite {K V : Type} [DecidableEq K] (k k2 : K) (v : V)
    (h : k2 ≠ k) :
    ∀ (d : List (K × V)),
      assocGet (d.map (fun p => if p.1 = k then (k, v) else p)) k2 = assocGet d k2
  | [] => rfl
  | p :: rest => by
    have hrec := assocGet_overwrite k k2 v h rest
    by_cases hk : p.1 = k
    · have hx1 : ¬ ((k, v).1 = k2) := fun he => h he.symm
      have hx2 : ¬ (p.1 = k2) := by rw [hk]; exact fun he => h he.symm
      rw [List.map_cons, if_pos hk, assocGet_cons, assocGet_cons, if_neg hx1, if_neg hx2]
      exact hrec
    · rw [List.map_cons, if_neg hk, assocGet_cons, assocGet_cons]
      by_cases hk2 : p.1 = k2
      · rw [if_pos hk2, if_pos hk2]
      · rw [if_neg hk2, if_neg hk2]
        exact hrec

/-- A successful lookup survives appending on the right. -/
theorem assocGet_append_left {K V : Type} [DecidableEq K] :
    ∀ (d e : List (K × V)) (k : K) (v : V), assocGet d k = some v →
      assocGet (d ++ e) k = some v
  | [], _, _, _, h => by simp [assocGet] at h
  | p :: rest, e, k, v, h => by
    rw [assocGet_cons] at h
    by_cases hk : p.1 = k
    · rw [if_pos hk] at h
      rw [List.cons_append, assocGet_cons, if_pos hk]
      exact h
    · rw [if_neg hk] at h
      rw [List.cons_append, assocGet_cons, if_neg hk]
      exact assocGet_append_left rest e k v h

/-- A failed lookup defers to the appended part. -/
theorem assocGet_append_right {K V : Type} [DecidableEq K] :
    ∀ (d e : List (K × V)) (k : K), assocGet d k = none →
      assocGet (d ++ e) k = assocGet e k
  | [], _, _, _ => rfl
  | p :: rest, e, k, h => by
    rw [assocGet_cons] at h
    by_cases hk : p.1 = k
    · rw [if_pos hk] at h
      exact absurd h (by simp)
    · rw [if_neg hk] at h
      rw [List.cons_append, assocGet_cons, if_neg hk]
      exact assocGet_append_right rest e k h

/-- Writing one key leaves lookups of other keys unchanged. -/
theorem assocGet_dictSet_ne {K V : Type} [DecidableEq K]
    (d : List (K × V)) (k k2 : K) (v : V) (h : k2 ≠ k) :
    assocGet (dictSet d k v) k2 = assocGet d k2 := by
  rw [dictSet]
  by_cases hc : (d.map Prod.fst).contains k
  · rw [if_pos hc]
    exact assocGet_overwrite k k2 v h d
  · rw [if_neg hc]
    cases hg : assocGet d k2 with
    | some v2 => exact assocGet_append_left d [(k, v)] k2 v2 hg
    | none =>
      rw [assocGet_append_right d [(k, v)] k2 hg, assocGet_cons,
        if_neg (fun he : k = k2 => h he.symm)]
      rfl

/-- Any pair of the written dict is an old pair or the written one. -/
theorem mem_dictSet {K V : Type} [DecidableEq K]
    (d : List (K × V)) (k : K) (v : V) (p : K × V) (h : p ∈ dictSet d k v) :
    p ∈ d ∨ p = (k, v) := by
  rw [dictSet] at h
  by_cases hc : (d.map Prod.fst).contains k
  · rw [if_pos hc] at h
    obtain ⟨q, hq, he⟩ := List.mem_map.mp h
    by_cases hk : q.1 = k
    · rw [if_pos hk] at he
      exact Or.inr he.symm
    · rw [if_neg hk] at he
      exact Or.inl (he ▸ hq)
  · rw [if_neg hc] at h
    rcases List.mem_append.mp h with h | h
    · exact Or.inl h
    · exact Or.inr (List.mem_singleton.mp h)

/-- Building a dict from pairs with distinct keys keeps the list as is. -/
theorem pyDict_eq_self {K V : Type} [DecidableEq K] (l : List (K × V))
    (hnd : (l.map Prod.fst).Nodup) : pyDict l = l := by
  suffices hgen : ∀ (l2 : List (K × V)) (acc : List (K × V)),
      ((acc.map Prod.fst ++ l2.map Prod.fst).Nodup) →
      l2.foldl (fun d p => dictSet d p.1 p.2) acc = acc ++ l2 by
    simpa using hgen l [] (by simpa using hnd)
  intro l2
  induction l2 with
  | nil =>
    intro acc _
    simp
  | cons p rest ih =>
    intro acc hnd2
    have hk : p.1 ∉ acc.map Prod.fst := by
      rw [List.nodup_append] at hnd2
      exact fun hmem => hnd2.2.2 hmem (by simp)
    have hset : dictSet acc p.1 p.2 = acc ++ [p] := by
      rw [dictSet, if_neg (fun hc => hk (mem_of_keys_contains hc))]
    have hnd3 : ((acc ++ [p]).map Prod.fst ++ rest.map Prod.fst).Nodup := by
      rw [List.map_append]
      rw [List.append_assoc]
      simpa using hnd2
    calc (p :: rest).foldl (fun d q => dictSet d q.1 q.2) acc
        = rest.foldl (fun d q => dictSet d q.1 q.2) (acc ++ [p]) := by
          rw [List.foldl_cons, hset]
      _ = (acc ++ [p]) ++ rest := ih (acc ++ [p]) hnd3
      _ = acc ++ p :: rest := by simp

/-- Any pair of a built dict comes from the input pair list. -/
theorem mem_pyDict {K V : Type} [DecidableEq K] (l : List (K × V)) (p : K × V)
    (h : p ∈ pyDict l) : p ∈ l := by
  suffices hgen : ∀ (l2 acc : List (K × V)) (q : K × V),
      q ∈ l2.foldl (fun d r => dictSet d r.1 r.2) acc → q ∈ acc ∨ q ∈ l2 by
    rcases hgen l [] p h with hq | hq
    · exact absurd hq (by simp)
    · exact hq
  intro l2
  induction l2 with
  | nil =>
    intro acc q hq
    exact Or.inl hq
  | cons r rest ih =>
    intro acc q hq
    rw [List.foldl_cons] at hq
    rcases ih (dictSet acc r.1 r.2) q hq with hq2 | hq2
    · rcases mem_dictSet acc r.1 r.2 q hq2 with hq3 | hq3
      · exact Or.inl hq3
      · right
        rw [hq3]
        exact List.mem_cons_self _ _
    · exact Or.inr (List.mem_cons_of_mem _ hq2)

/-- The key sequence of a built dict consists of input keys. -/
theorem pyDict_keys_subset {K V : Type} [DecidableEq K] (l : List (K × V)) (k : K)
    (h : k ∈ (pyDict l).map Prod.fst) : k ∈ l.map Prod.fst := by
  obtain ⟨p, hp, he⟩ := List.mem_map.mp h
  exact List.mem_map.mpr ⟨p, mem_pyDict l p hp, he⟩

/-- Replacing the upstream list keeps the node id. -/
theorem withUpstream_nodeId (n : SdkNode) (us : List SdkNode) :
    (n.withUpstream us).nodeId = n.nodeId := by cases n; rfl

/-- Replacing the upstream list installs exactly that list. -/
theorem withUpstream_upstream (n : SdkNode) (us : List SdkNode) :
    (n.withUpstream us).upstream = us := by cases n; rfl

/-- Installing the current upstream list is the identity. -/
theorem withUpstream_self (n : SdkNode) : n.withUpstream n.upstream = n := by cases n; rfl

/-- Appending one upstream node is an upstream-list replacement. -/
theorem appendUpstream_eq (n u : SdkNode) :
    n.appendUpstream u = n.withUpstream (n.upstream ++ [u]) := by cases n; rfl

/-- Replacement after replacement keeps only the last list. -/
theorem withUpstream_withUpstream (n : SdkNode) (us1 us2 : List SdkNode) :
    (n.withUpstream us1).withUpstream us2 = n.withUpstream us2 := by cases n; rfl

/-- The wire form of a node ignores the live upstream list. -/
theorem serializeNode_withUpstream (n : SdkNode) (us : List SdkNode) :
    serializeNode (n.withUpstream us) = serializeNode n := by cases n; rfl

/-- A promoted node wired with any upstream list serializes back to its
model node. -/
theorem serializeNode_promote (m : ModelNode) (us : List SdkNode) :
    serializeNode ((promoteNode m).withUpstream us) = m := by
  rw [serializeNode_withUpstream]
  rfl

/-- Any successful wiring run only extends the upstream list of the
node being wired. -/
theorem wireUpstreamIds_ok_shape :
    ∀ (uids : List (Option String)) (d : List (Option String × SdkNode)) (cur v : SdkNode),
      wireUpstreamIds d cur uids = Except.ok v →
      ∃ us, v = cur.withUpstream (cur.upstream ++ us)
  | [], d, cur, v, h => by
    simp only [wireUpstreamIds, Except.ok.injEq] at h
    exact ⟨[], by rw [← h, List.append_nil, withUpstream_self]⟩
  | uid :: rest, d, cur, v, h => by
    rw [wireUpstreamIds] at h
    cases hg : assocGet d uid with
    | none => rw [hg] at h; exact absurd h (by simp)
    | some u =>
      rw [hg] at h
      obtain ⟨us, hus⟩ := wireUpstreamIds_ok_shape rest d (cur.appendUpstream u) v h
      refine ⟨u :: us, ?_⟩
      rw [hus, appendUpstream_eq, withUpstream_withUpstream, withUpstream_upstream]
      rw [List.append_assoc]
      rfl

/-- When every wanted id is a key of a map whose values carry their key
as id, the wiring run succeeds and appends, in order, upstream nodes
whose ids are exactly the wanted ids. -/
theorem wireUpstreamIds_ok_spec :
    ∀ (uids : List (Option String)) (d : List (Option String × SdkNode)) (cur : SdkNode),
      (∀ p ∈ d, p.2.nodeId = p.1) →
      (∀ uid ∈ uids, uid ∈ d.map Prod.fst) →
      ∃ us, wireUpstreamIds d cur uids = Except.ok (cur.withUpstream (cur.upstream ++ us)) ∧
        us.map SdkNode.nodeId = uids
  | [], d, cur, _, _ =>
    ⟨[], by rw [List.append_nil, withUpstream_self]; rfl, rfl⟩
  | uid :: rest, d, cur, hinv, hall => by
    obtain ⟨u, hu⟩ := assocGet_isSome_of_mem d uid (hall uid (List.mem_cons_self _ _))
    have hid : u.nodeId = uid := hinv (uid, u) (assocGet_mem d uid u hu)
    obtain ⟨us, hrun, hids⟩ := wireUpstreamIds_ok_spec rest d (cur.appendUpstream u) hinv
      (fun x hx => hall x (List.mem_cons_of_mem _ hx))
    refine ⟨u :: us, ?_, ?_⟩
    · simp only [wireUpstreamIds, hu]
      rw [hrun, appendUpstream_eq, withUpstream_withUpstream, withUpstream_upstream,
        List.append_assoc]
      rfl
    · rw [List.map_cons, hid, hids]

/-- A wanted id missing from the map makes the wiring run fail with a
key error. -/
theorem wireUpstreamIds_error :
    ∀ (uids : List (Option String)) (d : List (Option String × SdkNode)) (cur : SdkNode),
      (∃ uid ∈ uids, uid ∉ d.map Prod.fst) →
      ∃ s, wireUpstreamIds d cur uids = Except.error (Err.keyError s)
  | [], _, _, h => by
    obtain ⟨uid, hmem, _⟩ := h
    exact absurd hmem (by simp)
  | uid :: rest, d, cur, h => by
    by_cases hk : uid ∈ d.map Prod.fst
    · obtain ⟨u, hu⟩ := assocGet_isSome_of_mem d uid hk
      obtain ⟨m0, hm0, hmiss⟩ := h
      have hm0' : m0 ∈ rest := by
        rcases List.mem_cons.mp hm0 with he | he
        · exact absurd (he ▸ hk) hmiss
        · exact he
      obtain ⟨s, hs⟩ := wireUpstreamIds_error rest d (cur.appendUpstream u) ⟨m0, hm0', hmiss⟩
      refine ⟨s, ?_⟩
      simp only [wireUpstreamIds, hu]
      exact hs
    · refine ⟨idKeyStr uid, ?_⟩
      simp only [wireUpstreamIds, assocGet_eq_none_of_not_mem d uid hk]

/-- One wiring step keeps the key sequence and the values-carry-their-key
invariant. -/
theorem wireNode_inv (d d2 : List (Option String × SdkNode)) (m : ModelNode)
    (h : wireNode d m = Except.ok d2) (hinv : ∀ p ∈ d, p.2.nodeId = p.1) :
    d2.map Prod.fst = d.map Prod.fst ∧ (∀ p ∈ d2, p.2.nodeId = p.1) := by
  rw [wireNode] at h
  cases hg : assocGet d m.id with
  | none =>
    simp only [hg] at h
    exact absurd h (by simp)
  | some current =>
    simp only [hg] at h
    cases hw : wireUpstreamIds d current current.upstreamNodeIds with
    | error e =>
      simp only [hw] at h
      exact absurd h (by simp)
    | ok wired =>
      simp only [hw, Except.ok.injEq] at h
      subst h
      have hcur : current.nodeId = m.id := hinv (m.id, current) (assocGet_mem d m.id current hg)
      have hwid : wired.nodeId = m.id := by
        obtain ⟨us, hus⟩ := wireUpstreamIds_ok_shape current.upstreamNodeIds d current wired hw
        rw [hus, withUpstream_nodeId, hcur]
      have hkey : m.id ∈ d.map Prod.fst :=
        List.mem_map.mpr ⟨(m.id, current), assocGet_mem d m.id current hg, rfl⟩
      refine ⟨dictSet_keys_of_mem d m.id wired hkey, ?_⟩
      intro p hp
      rcases mem_dictSet d m.id wired p hp with hp2 | hp2
      · exact hinv p hp2
      · rw [hp2]
        exact hwid

/-- The whole wiring pass keeps the key sequence and the
values-carry-their-key invariant. -/
theorem wireAll_inv :
    ∀ (ms : List ModelNode) (d d' : List (Option String × SdkNode)),
      wireAll d ms = Except.ok d' → (∀ p ∈ d, p.2.nodeId = p.1) →
      d'.map Prod.fst = d.map Prod.fst ∧ (∀ p ∈ d', p.2.nodeId = p.1)
  | [], d, d', h, hinv => by
    simp only [wireAll, Except.ok.injEq] at h
    subst h
    exact ⟨rfl, hinv⟩
  | m :: rest, d, d', h, hinv => by
    rw [wireAll] at h
    cases hn : wireNode d m with
    | error e =>
      simp only [hn] at h
      exact absurd h (by simp)
    | ok d2 =>
      simp only [hn] at h
      obtain ⟨hk2, hinv2⟩ := wireNode_inv d d2 m hn hinv
      obtain ⟨hk3, hinv3⟩ := wireAll_inv rest d2 d' h hinv2
      exact ⟨hk3.trans hk2, hinv3⟩

/-- The key sequence of the promoted node map input is the model id
sequence. -/
theorem promoted_keys (ms : List ModelNode) :
    (ms.map (fun m => (m.id, promoteNode m))).map Prod.fst = ms.map ModelNode.id := by
  rw [List.map_map]
  exact List.map_congr_left (fun _ _ => rfl)

/-- A successful constructor run installs exactly the given node list. -/
theorem create_ok_nodes (nodes : List SdkNode) (iface : TypedInterface)
    (outs : List Binding) (id : Option Identifier) (md : Option WorkflowMetadata)
    (mdd : Option WorkflowMetadataDefaults) (w : SdkWorkflow)
    (h : SdkWorkflow.create nodes iface outs id md mdd = Except.ok w) :
    w.nodes = nodes ∧ w.interface = iface ∧ w.outputs = outs ∧
    w.wfId = id.getD uuidPlaceholderId ∧ w.metadata = md.getD () ∧
    w.metadataDefaults = mdd.getD () := by
  rw [SdkWorkflow.create] at h
  split at h
  · exact absurd h (by simp)
  · simp only [Except.ok.injEq] at h
    subst h
    exact ⟨rfl, rfl, rfl, rfl, rfl, rfl⟩

/-- A node surviving the system filter has neither reserved id. -/
theorem getNonSystemNodes_mem (nodes : List ModelNode) (m : ModelNode)
    (h : m ∈ getNonSystemNodes nodes) :
    m ∈ nodes ∧ m.id ≠ some startNodeId ∧ m.id ≠ some endNodeId := by
  rw [getNonSystemNodes, List.mem_filter] at h
  exact ⟨h.1, of_decide_eq_true h.2⟩

/-- A wiring run over ids that are all keys succeeds. -/
theorem wireUpstreamIds_ok_exists :
    ∀ (uids : List (Option String)) (d : List (Option String × SdkNode)) (cur : SdkNode),
      (∀ uid ∈ uids, uid ∈ d.map Prod.fst) →
      ∃ v, wireUpstreamIds d cur uids = Except.ok v
  | [], _, cur, _ => ⟨cur, rfl⟩
  | uid :: rest, d, cur, hall => by
    obtain ⟨u, hu⟩ := assocGet_isSome_of_mem d uid (hall uid (List.mem_cons_self _ _))
    obtain ⟨v, hv⟩ := wireUpstreamIds_ok_exists rest d (cur.appendUpstream u)
      (fun x hx => hall x (List.mem_cons_of_mem _ hx))
    refine ⟨v, ?_⟩
    simp only [wireUpstreamIds, hu]
    exact hv

/-- When the node map carries the promoted form of every remaining model
node under distinct ids and some remaining node declares an upstream id
that is no key, the wiring pass fails with a key error. -/
theorem wireAll_error :
    ∀ (rest : List ModelNode) (d : List (Option String × SdkNode))
      (allKeys : List (Option String)),
      d.map Prod.fst = allKeys →
      (rest.map ModelNode.id).Nodup →
      (∀ m ∈ rest, assocGet d m.id = some (promoteNode m)) →
      (∃ m ∈ rest, ∃ uid ∈ m.upstreamNodeIds, uid ∉ allKeys) →
      ∃ s, wireAll d rest = Except.error (Err.keyError s)
  | [], _, _, _, _, _, hex => by
    obtain ⟨m, hm, _⟩ := hex
    exact absurd hm (by simp)
  | h :: rest', d, allKeys, hkeys, hnd, hget, hex => by
    have hcur : assocGet d h.id = some (promoteNode h) := hget h (List.mem_cons_self _ _)
    simp only [List.map_cons, List.nodup_cons] at hnd
    by_cases hmiss : ∃ uid ∈ h.upstreamNodeIds, uid ∉ allKeys
    · obtain ⟨s, hs⟩ := wireUpstreamIds_error h.upstreamNodeIds d (promoteNode h)
        (by rw [hkeys]; exact hmiss)
      refine ⟨s, ?_⟩
      rw [wireAll]
      simp only [wireNode, hcur]
      have hup : (promoteNode h).upstreamNodeIds = h.upstreamNodeIds := rfl
      rw [hup, hs]
    · have hall : ∀ uid ∈ h.upstreamNodeIds, uid ∈ d.map Prod.fst := by
        intro uid hu
        rw [hkeys]
        by_contra hcon
        exact hmiss ⟨uid, hu, hcon⟩
      obtain ⟨v, hv⟩ := wireUpstreamIds_ok_exists h.upstreamNodeIds d (promoteNode h) hall
      have hkmem : h.id ∈ d.map Prod.fst :=
        List.mem_map.mpr ⟨(h.id, promoteNode h), assocGet_mem d h.id _ hcur, rfl⟩
      have hget2 : ∀ m ∈ rest', assocGet (dictSet d h.id v) m.id = some (promoteNode m) := by
        intro m hm
        have hne : m.id ≠ h.id := by
          intro he
          exact hnd.1 (he ▸ List.mem_map.mpr ⟨m, hm, rfl⟩)
        rw [assocGet_dictSet_ne d h.id m.id v hne]
        exact hget m (List.mem_cons_of_mem _ hm)
      have hex2 : ∃ m ∈ rest', ∃ uid ∈ m.upstreamNodeIds, uid ∉ allKeys := by
        obtain ⟨m0, hm0, uid0, hu0, hmiss0⟩ := hex
        rcases List.mem_cons.mp hm0 with he | he
        · exact absurd ⟨uid0, he ▸ hu0, hmiss0⟩ hmiss
        · exact ⟨m0, he, uid0, hu0, hmiss0⟩
      obtain ⟨s, hs⟩ := wireAll_error rest' (dictSet d h.id v) allKeys
        (by rw [dictSet_keys_of_mem d h.id v hkmem]; exact hkeys) hnd.2 hget2 hex2
      refine ⟨s, ?_⟩
      rw [wireAll]
      simp only [wireNode, hcur]
      have hup : (promoteNode h).upstreamNodeIds = h.upstreamNodeIds := rfl
      rw [hup, hv]
      exact hs

/-- C6: during promotion the system-reserved start and end node ids are
filtered out before processing, so no node of a successfully promoted
workflow carries a reserved id; and (for a template whose non-system
node ids are distinct, as in any engine-produced template) a node whose
declared upstream id is not a key of the node map built for the same
template makes promotion fail with the dict-lookup key error, the
condition the spec calls `GraphIntegrityError`. -/
theorem c6_promotion (base : WorkflowTemplateModel) :
    (∀ w, SdkWorkflow.promoteFromModel base = Except.ok w →
      ∀ n ∈ w.nodes, n.nodeId ≠ some startNodeId ∧ n.nodeId ≠ some endNodeId) ∧
    (((getNonSystemNodes base.nodes).map ModelNode.id).Nodup →
      (∃ m ∈ getNonSystemNodes base.nodes,
        ∃ uid ∈ m.upstreamNodeIds,
          uid ∉ (getNonSystemNodes base.nodes).map ModelNode.id) →
      isKeyError (SdkWorkflow.promoteFromModel base) = true) := by
  constructor
  · intro w hok n hn
    rw [SdkWorkflow.promoteFromModel] at hok
    cases hwire : wireAll
        (pyDict ((getNonSystemNodes base.nodes).map (fun m => (m.id, promoteNode m))))
        (getNonSystemNodes base.nodes) with
    | error e =>
      rw [hwire] at hok
      exact absurd hok (by simp)
    | ok wired =>
      rw [hwire] at hok
      have hnodes := (create_ok_nodes _ _ _ _ _ _ w hok).1
      have hinv0 : ∀ p ∈ pyDict ((getNonSystemNodes base.nodes).map
          (fun m => (m.id, promoteNode m))), p.2.nodeId = p.1 := by
        intro p hp
        obtain ⟨m, _, he⟩ := List.mem_map.mp (mem_pyDict _ p hp)
        rw [← he]
        rfl
      obtain ⟨hkeys, hinv⟩ := wireAll_inv _ _ _ hwire hinv0
      rw [hnodes] at hn
      obtain ⟨p, hp, he⟩ := List.mem_map.mp hn
      have hidkey : n.nodeId ∈ wired.map Prod.fst := by
        rw [← he, hinv p hp]
        exact List.mem_map.mpr ⟨p, hp, rfl⟩
      rw [hkeys] at hidkey
      have hidkey2 := pyDict_keys_subset _ _ hidkey
      rw [promoted_keys] at hidkey2
      obtain ⟨m, hm, hme⟩ := List.mem_map.mp hidkey2
      have hprop := (getNonSystemNodes_mem base.nodes m hm).2
      rw [← hme]
      exact hprop
  · intro hnd hex
    have hkeys : (pyDict ((getNonSystemNodes base.nodes).map
        (fun m => (m.id, promoteNode m)))).map Prod.fst =
        (getNonSystemNodes base.nodes).map ModelNode.id := by
      rw [pyDict_eq_self _ (by rw [promoted_keys]; exact hnd)]
      exact promoted_keys _
    have hget : ∀ m ∈ getNonSystemNodes base.nodes,
        assocGet (pyDict ((getNonSystemNodes base.nodes).map
          (fun m => (m.id, promoteNode m)))) m.id = some (promoteNode m) := by
      intro m hm
      rw [pyDict_eq_self _ (by rw [promoted_keys]; exact hnd)]
      exact assocGet_of_mem_nodup _ _ _ (by rw [promoted_keys]; exact hnd)
        (List.mem_map.mpr ⟨m, hm, rfl⟩)
    obtain ⟨s, hs⟩ := wireAll_error (getNonSystemNodes base.nodes) _ _ hkeys hnd hget hex
    rw [SdkWorkflow.promoteFromModel, hs]
    rfl

/-- Witness for C6: promoting the three-node template drops the two
system nodes so the surviving node carries a plain id, and promoting the
template whose node wants the absent upstream id `ghost` fails with the
key error. -/
theorem c6_promotion_witness :
    (promotedPlainNode.nodeId ≠ some startNodeId ∧
      promotedPlainNode.nodeId ≠ some endNodeId) ∧
    isKeyError (SdkWorkflow.promoteFromModel ghostTemplate) = true :=
  ⟨(c6_promotion plainTemplate).1 promotedPlainWorkflow rfl promotedPlainNode
      (by simp [promotedPlainWorkflow]),
   (c6_promotion ghostTemplate).2 (by decide) (by decide)⟩

/-- One wiring step on a map split around the node being wired rewrites
exactly that entry into a node realizing the model node. -/
theorem wireNode_split (dPre dPost : List (Option String × SdkNode)) (m : ModelNode)
    (hkPre : m.id ∉ dPre.map Prod.fst) (hkPost : m.id ∉ dPost.map Prod.fst)
    (hinv : ∀ p ∈ dPre ++ (m.id, promoteNode m) :: dPost, p.2.nodeId = p.1)
    (hup : ∀ uid ∈ m.upstreamNodeIds,
      uid ∈ (dPre ++ (m.id, promoteNode m) :: dPost).map Prod.fst) :
    ∃ v, wireNode (dPre ++ (m.id, promoteNode m) :: dPost) m =
        Except.ok (dPre ++ (m.id, v) :: dPost) ∧ NodeMatchesModel v m := by
  have hget : assocGet (dPre ++ (m.id, promoteNode m) :: dPost) m.id = some (promoteNode m) :=
    assocGet_append_cons dPre dPost m.id (promoteNode m) hkPre
  obtain ⟨us, hrun, hids⟩ := wireUpstreamIds_ok_spec m.upstreamNodeIds
    (dPre ++ (m.id, promoteNode m) :: dPost) (promoteNode m) hinv hup
  have hnil : (promoteNode m).upstream ++ us = us := by
    rw [show (promoteNode m).upstream = [] from rfl, List.nil_append]
  rw [hnil] at hrun
  refine ⟨(promoteNode m).withUpstream us, ?_, ?_, ?_⟩
  · simp only [wireNode, hget,
      show (promoteNode m).upstreamNodeIds = m.upstreamNodeIds from rfl, hrun]
    rw [dictSet_append_cons dPre dPost m.id (promoteNode m)
      ((promoteNode m).withUpstream us) hkPre hkPost]
  · exact serializeNode_promote m us
  · rw [withUpstream_upstream, hids]

/-- The full wiring pass on a map whose prefix is already wired and
whose suffix holds the promoted remaining nodes succeeds and leaves the
prefix alone while every processed entry realizes its model node. -/
theorem wireAll_split :
    ∀ (rest : List ModelNode) (dPre : List (Option String × SdkNode)),
      (dPre.map Prod.fst ++ rest.map ModelNode.id).Nodup →
      (∀ p ∈ dPre, p.2.nodeId = p.1) →
      (∀ m ∈ rest, ∀ uid ∈ m.upstreamNodeIds,
        uid ∈ dPre.map Prod.fst ++ rest.map ModelNode.id) →
      ∃ dRest, wireAll (dPre ++ rest.map (fun m => (m.id, promoteNode m))) rest =
          Except.ok (dPre ++ dRest) ∧
        List.Forall₂ (fun m p => p.1 = m.id ∧ NodeMatchesModel p.2 m) rest dRest
  | [], dPre, _, _, _ => ⟨[], by simp [wireAll], List.Forall₂.nil⟩
  | m :: rest', dPre, hnd, hinv, hup => by
    have hndparts := List.nodup_append.mp hnd
    have hkPre : m.id ∉ dPre.map Prod.fst := fun hmem =>
      hndparts.2.2 hmem (by simp)
    have h21 : (m.id :: rest'.map ModelNode.id).Nodup := by
      have h22 := hndparts.2.1
      rwa [List.map_cons] at h22
    have hcons := List.nodup_cons.mp h21
    have hkPost : m.id ∉ (rest'.map (fun m2 => (m2.id, promoteNode m2))).map Prod.fst := by
      rw [promoted_keys]
      exact hcons.1
    have hinvFull : ∀ p ∈ dPre ++ (m.id, promoteNode m) ::
        rest'.map (fun m2 => (m2.id, promoteNode m2)), p.2.nodeId = p.1 := by
      intro p hp
      rcases List.mem_append.mp hp with hp2 | hp2
      · exact hinv p hp2
      · rcases List.mem_cons.mp hp2 with hp3 | hp3
        · rw [hp3]
          rfl
        · obtain ⟨m2, _, he⟩ := List.mem_map.mp hp3
          rw [← he]
          rfl
    have hkeysFull : (dPre ++ (m.id, promoteNode m) ::
        rest'.map (fun m2 => (m2.id, promoteNode m2))).map Prod.fst =
        dPre.map Prod.fst ++ (m :: rest').map ModelNode.id := by
      rw [List.map_append, List.map_cons, List.map_cons, promoted_keys]
    obtain ⟨v, hwn, hmatch⟩ := wireNode_split dPre
      (rest'.map (fun m2 => (m2.id, promoteNode m2))) m hkPre hkPost hinvFull
      (by
        intro uid hu
        rw [hkeysFull]
        exact hup m (List.mem_cons_self _ _) uid hu)
    have hvid : v.nodeId = m.id := by
      rw [show v.nodeId = (serializeNode v).id from rfl, hmatch.1]
    have hrearr : dPre.map Prod.fst ++ (m :: rest').map ModelNode.id =
        (dPre ++ [(m.id, v)]).map Prod.fst ++ rest'.map ModelNode.id := by
      simp [List.append_assoc]
    obtain ⟨dRest', hrunAll, hfa⟩ := wireAll_split rest' (dPre ++ [(m.id, v)])
      (by rw [← hrearr]; exact hnd)
      (by
        intro p hp
        rcases List.mem_append.mp hp with hp2 | hp2
        · exact hinv p hp2
        · rw [List.mem_singleton.mp hp2]
          exact hvid)
      (by
        intro m2 hm2 uid hu
        rw [← hrearr]
        exact hup m2 (List.mem_cons_of_mem _ hm2) uid hu)
    refine ⟨(m.id, v) :: dRest', ?_, List.Forall₂.cons ⟨rfl, hmatch⟩ hfa⟩
    rw [show (m :: rest').map (fun m2 => (m2.id, promoteNode m2)) =
      (m.id, promoteNode m) :: rest'.map (fun m2 => (m2.id, promoteNode m2)) from rfl]
    rw [wireAll]
    simp only [hwn]
    have hsplit : dPre ++ (m.id, v) :: rest'.map (fun m2 => (m2.id, promoteNode m2)) =
        (dPre ++ [(m.id, v)]) ++ rest'.map (fun m2 => (m2.id, promoteNode m2)) := by
      simp
    rw [hsplit, hrunAll]
    simp

/-- Right-hand members of a pointwise relation have related left-hand
members. -/
theorem forall2_mem_right {α β : Type} {R : α → β → Prop} :
    ∀ {as : List α} {bs : List β}, List.Forall₂ R as bs → ∀ b ∈ bs, ∃ a ∈ as, R a b := by
  intro as bs h
  induction h with
  | nil =>
    intro b hb
    exact absurd hb (by simp)
  | cons hr _ ih =>
    intro b hb
    rcases List.mem_cons.mp hb with he | he
    · subst he
      exact ⟨_, List.mem_cons_self _ _, hr⟩
    · obtain ⟨a, ha, hra⟩ := ih b he
      exact ⟨a, List.mem_cons_of_mem _ ha, hra⟩

/-- Mapping both sides of a pointwise relation that forces the images to
agree yields equal lists. -/
theorem forall2_map_eq {α β γ : Type} {R : α → β → Prop} (f : β → γ) (g : α → γ)
    (h : ∀ a b, R a b → f b = g a) :
    ∀ {as : List α} {bs : List β}, List.Forall₂ R as bs → bs.map f = as.map g := by
  intro as bs hfa
  induction hfa with
  | nil => rfl
  | cons hr _ ih => simp only [List.map_cons, h _ _ hr, ih]

/-- C9 counterexample: a workflow whose single node carries the
system-reserved start-node id is filtered away by promotion, so the
round trip returns a workflow with no nodes at all: the claim fails for
this workflow, with or without identifier adjustment. -/
theorem c9_counterexample :
    (SdkWorkflow.promoteFromModel (SdkWorkflow.serializeTemplate startIdWorkflow)).map
        (fun w2 => w2.nodes.length) = Except.ok 0 ∧
    startIdWorkflow.nodes.length = 1 :=
  ⟨rfl, rfl⟩

/-- C9 (amended): for every workflow whose nodes all carry ids, with the
ids distinct and none system-reserved, whose declared upstream-id lists
match the live upstream references, and whose declared upstream ids all
resolve within the node list, promoting the serialized template
reconstructs a workflow with the same identifier, interface, output
bindings, per-node wire form (id, metadata, bindings, upstream ids,
executable, in order) and per-node live dependency structure. -/
theorem c9_round_trip (w : SdkWorkflow)
    (h1 : ∀ n ∈ w.nodes, (n.nodeId).isSome)
    (h2 : (w.nodes.map SdkNode.nodeId).Nodup)
    (h3 : ∀ n ∈ w.nodes, n.nodeId ≠ some startNodeId ∧ n.nodeId ≠ some endNodeId)
    (h4 : ∀ n ∈ w.nodes, ∀ uid ∈ n.upstreamNodeIds, uid ∈ w.nodes.map SdkNode.nodeId)
    (h5 : ∀ n ∈ w.nodes, n.upstreamNodeIds = n.upstream.map SdkNode.nodeId) :
    (SdkWorkflow.promoteFromModel (SdkWorkflow.serializeTemplate w)).map wfObs =
      Except.ok (wfObs w) := by
  have hfilter : getNonSystemNodes (w.nodes.map serializeNode) = w.nodes.map serializeNode := by
    rw [getNonSystemNodes, List.filter_eq_self]
    intro m hm
    obtain ⟨n, hn, rfl⟩ := List.mem_map.mp hm
    exact decide_eq_true ⟨(h3 n hn).1, (h3 n hn).2⟩
  have hmsids : (w.nodes.map serializeNode).map ModelNode.id = w.nodes.map SdkNode.nodeId := by
    rw [List.map_map]
    exact List.map_congr_left (fun _ _ => rfl)
  have hnd : ((w.nodes.map serializeNode).map ModelNode.id).Nodup := by
    rw [hmsids]
    exact h2
  have hdict : pyDict ((w.nodes.map serializeNode).map (fun m => (m.id, promoteNode m))) =
      (w.nodes.map serializeNode).map (fun m => (m.id, promoteNode m)) :=
    pyDict_eq_self _ (by rw [promoted_keys]; exact hnd)
  obtain ⟨dRest, hrun, hfa⟩ := wireAll_split (w.nodes.map serializeNode) []
    (by simpa using hnd)
    (by intro p hp; exact absurd hp (by simp))
    (by
      intro m hm uid hu
      obtain ⟨n, hn, rfl⟩ := List.mem_map.mp hm
      have hu2 : uid ∈ n.upstreamNodeIds := hu
      simp only [List.map_nil, List.nil_append, hmsids]
      exact h4 n hn uid hu2)
  simp only [List.nil_append] at hrun
  have hcheck : ((dRest.map Prod.snd).any
      (fun n => n.upstream.any fun u => u.nodeId.isNone)) = false := by
    rw [List.any_eq_false]
    intro v hv
    rw [Bool.not_eq_true, List.any_eq_false]
    intro u hu
    rw [Bool.not_eq_true]
    obtain ⟨p, hp, rfl⟩ := List.mem_map.mp hv
    obtain ⟨m, hm, hR⟩ := forall2_mem_right hfa p hp
    have huid : u.nodeId ∈ m.upstreamNodeIds := by
      rw [← hR.2.2]
      exact List.mem_map.mpr ⟨u, hu, rfl⟩
    obtain ⟨n0, hn0, rfl⟩ := List.mem_map.mp hm
    have hin : u.nodeId ∈ w.nodes.map SdkNode.nodeId := h4 n0 hn0 u.nodeId huid
    obtain ⟨n1, hn1, he1⟩ := List.mem_map.mp hin
    have hsome : (u.nodeId).isSome = true := he1 ▸ h1 n1 hn1
    cases hni : u.nodeId with
    | none => rw [hni] at hsome; exact absurd hsome (by simp)
    | some x => simp [Option.isNone]
  have hprom : SdkWorkflow.promoteFromModel (SdkWorkflow.serializeTemplate w) =
      SdkWorkflow.create (dRest.map Prod.snd) w.interface w.outputs (some w.wfId)
        (some w.metadata) (some w.metadataDefaults) := by
    rw [SdkWorkflow.promoteFromModel]
    simp only [SdkWorkflow.serializeTemplate, hfilter, hdict, hrun]
  have hcreate : SdkWorkflow.create (dRest.map Prod.snd) w.interface w.outputs (some w.wfId)
      (some w.metadata) (some w.metadataDefaults) =
      Except.ok (rebuildWorkflow w (dRest.map Prod.snd)) := by
    rw [SdkWorkflow.create]
    simp only [hcheck]
    rfl
  have hser : (dRest.map Prod.snd).map serializeNode = w.nodes.map serializeNode := by
    have h0 := forall2_map_eq (fun p : Option String × SdkNode => serializeNode p.2)
      (fun m : ModelNode => m) (fun m p hR => hR.2.1) hfa
    have he1 : (dRest.map Prod.snd).map serializeNode =
        dRest.map (fun p => serializeNode p.2) := by
      rw [List.map_map]
      rfl
    have he2 : (w.nodes.map serializeNode).map (fun m : ModelNode => m) =
        w.nodes.map serializeNode := by
      simp
    rw [he1, h0, he2]
  have hups : (dRest.map Prod.snd).map (fun n => n.upstream.map SdkNode.nodeId) =
      w.nodes.map (fun n => n.upstream.map SdkNode.nodeId) := by
    have h0 := forall2_map_eq
      (fun p : Option String × SdkNode => p.2.upstream.map SdkNode.nodeId)
      (fun m : ModelNode => m.upstreamNodeIds) (fun m p hR => hR.2.2) hfa
    have he1 : (dRest.map Prod.snd).map (fun n => n.upstream.map SdkNode.nodeId) =
        dRest.map (fun p => p.2.upstream.map SdkNode.nodeId) := by
      rw [List.map_map]
      rfl
    have he2 : (w.nodes.map serializeNode).map (fun m : ModelNode => m.upstreamNodeIds) =
        w.nodes.map (fun n => n.upstream.map SdkNode.nodeId) := by
      rw [List.map_map]
      refine List.map_congr_left ?_
      intro n hn
      show (serializeNode n).upstreamNodeIds = n.upstream.map SdkNode.nodeId
      exact h5 n hn
    rw [he1, h0, he2]
  have hfinal : wfObs (rebuildWorkflow w (dRest.map Prod.snd)) = wfObs w := by
    rw [wfObs, wfObs]
    rw [show (rebuildWorkflow w (dRest.map Prod.snd)).nodes = dRest.map Prod.snd from rfl]
    rw [hser, hups]
    rfl
  rw [hprom, hcreate]
  show Except.ok (wfObs (rebuildWorkflow w (dRest.map Prod.snd))) = Except.ok (wfObs w)
  rw [hfinal]

/-- Witness for C9 (amended): the two-node sample workflow whose second
node depends on the first survives the round trip with its observable
content intact. -/
theorem c9_round_trip_witness :
    (SdkWorkflow.promoteFromModel (SdkWorkflow.serializeTemplate rtWorkflow)).map wfObs =
      Except.ok (wfObs rtWorkflow) :=
  c9_round_trip rtWorkflow (by decide) (by decide) (by decide) (by decide) (by decide)

end Flytekit
